import Mathlib

/-!
Verification development for the `html4docx` HTML-to-Word translator
(`html4docx/h4d.py`).  Python functions are shallowly embedded as Lean
definitions; dictionaries become association lists, the stateful parser
becomes explicit state passing over event lists, floats become rationals.
Helpers from `html4docx.utils` / `html4docx.constants` that are not part of
the provided sources are modelled from the specification and marked as such.
-/

namespace H4D

/-- Attribute / style dictionaries (`dict[str, str]` in Python) as ordered
association lists; insertion order is preserved as in Python dicts. -/
abbrev Dict := List (String × String)

/-- `d[k]` lookup on a Python dict: the value of the binding of `k`. -/
def dictGet : Dict → String → Option String
  | [], _ => none
  | (k0, v0) :: rest, k => if k0 = k then some v0 else dictGet rest k

/-- `k in d` membership test on a Python dict. -/
def dictHas (d : Dict) (k : String) : Bool :=
  (dictGet d k).isSome

/-- Helper for `splitWs`: accumulate the current token (reversed) while
scanning the character list. -/
def splitWsAux : List Char → List Char → List String
  | [], [] => []
  | [], acc => [String.mk acc.reverse]
  | c :: cs, acc =>
      if c.isWhitespace then
        match acc with
        | [] => splitWsAux cs []
        | _ => String.mk acc.reverse :: splitWsAux cs []
      else splitWsAux cs (c :: acc)

/-- Modelled from the spec: `str.split()` — split the `class` attribute on
whitespace, preserving document order, dropping empty fragments. -/
def splitWs (s : String) : List String :=
  splitWsAux s.toList []

/-- ASCII lowercase of one character (`str.lower()` on the ASCII range). -/
def lowerChar (c : Char) : Char :=
  if 'A' ≤ c ∧ c ≤ 'Z' then Char.ofNat (c.toNat + 32) else c

/-- ASCII uppercase of one character. -/
def upperChar (c : Char) : Char :=
  if 'a' ≤ c ∧ c ≤ 'z' then Char.ofNat (c.toNat - 32) else c

/-- `str.lower()` on a whole string. -/
def lowerStr (s : String) : String :=
  String.mk (s.toList.map lowerChar)

/-- Case-insensitive prefix match: returns the remainder when the pattern
(already lowercase) is a prefix of the scanned characters. -/
def ciMatch : List Char → List Char → Option (List Char)
  | [], rest => some rest
  | _ :: _, [] => none
  | p :: ps, c :: cs => if lowerChar c = p then ciMatch ps cs else none

/-- Helper for `remove_important_from_style`: delete every case-insensitive
occurrence of `!important` (fuel-driven scan over the characters). -/
def removeImpAux : Nat → List Char → List Char
  | 0, cs => cs
  | _ + 1, [] => []
  | fuel + 1, c :: cs =>
      match ciMatch "!important".toList (c :: cs) with
      | some rest => removeImpAux fuel rest
      | none => c :: removeImpAux fuel cs

/-- Trim ASCII whitespace from both ends of a character list (`str.strip()`). -/
def trimChars (cs : List Char) : List Char :=
  (((cs.dropWhile Char.isWhitespace).reverse).dropWhile Char.isWhitespace).reverse

/-- `str.strip()` on a string. -/
def stripStr (s : String) : String :=
  String.mk (trimChars s.toList)

/-- Modelled from the spec: `utils.remove_important_from_style` — the
`!important` flag is "case-insensitive, token stripped" from a declaration
value. -/
def remove_important_from_style (s : String) : String :=
  String.mk (trimChars (removeImpAux s.toList.length s.toList))

/-- Modelled from the spec: named-color table of the Unit & Color Converter
("color tokens → RGB ... named colors"), stored as 6-hex-digit strings. -/
def NAMED_COLORS : Dict :=
  [("red", "FF0000"), ("blue", "0000FF"), ("green", "008000"),
   ("black", "000000"), ("white", "FFFFFF"), ("gray", "808080"),
   ("yellow", "FFFF00")]

/-- Hexadecimal digit test. -/
def isHexDig (c : Char) : Bool :=
  c.isDigit || ('a' ≤ c && c ≤ 'f') || ('A' ≤ c && c ≤ 'F')

/-- True when the token starts with `rgb(`. -/
def isRgbCall (s : String) : Bool :=
  match s.toList with
  | 'r' :: 'g' :: 'b' :: '(' :: _ => true
  | _ => false

/-- Modelled from the spec: `utils.is_color` — "matches a recognizable color
token (hex, rgb(), named)". -/
def is_color (s : String) : Bool :=
  match s.toList with
  | '#' :: rest => (rest.length = 6 || rest.length = 3) && rest.all isHexDig
  | _ => (dictGet NAMED_COLORS (lowerStr s)).isSome || isRgbCall s

/-- Collect maximal digit runs of a character list as numbers (used for the
`rgb(r, g, b)` color form). -/
def digitGroupsAux : List Char → Option Nat → List Nat
  | [], none => []
  | [], some n => [n]
  | c :: cs, acc =>
      if c.isDigit then
        digitGroupsAux cs (some ((acc.getD 0) * 10 + (c.toNat - 48)))
      else
        match acc with
        | some n => n :: digitGroupsAux cs none
        | none => digitGroupsAux cs none

/-- The sixteen uppercase hexadecimal digits. -/
def hexDigitChars : List Char := "0123456789ABCDEF".toList

/-- Two-hex-digit rendering of a byte value. -/
def natToHex2 (n : Nat) : List Char :=
  [hexDigitChars.getD (n / 16 % 16) '0', hexDigitChars.getD (n % 16) '0']

/-- Modelled from the spec: `utils.parse_color(value, return_hex=True)` —
normalizes a hex / named / `rgb()` color token to a 6-hex-digit string
(uppercase, no `#`); the border example in the spec yields `FF0000`. -/
def parse_color_hex (s : String) : String :=
  match s.toList with
  | '#' :: rest =>
      if rest.length = 6 then String.mk (rest.map upperChar)
      else if rest.length = 3 then
        String.mk ((rest.flatMap (fun c => [c, c])).map upperChar)
      else "000000"
  | _ =>
      match dictGet NAMED_COLORS (lowerStr s) with
      | some hex => hex
      | none =>
          match digitGroupsAux s.toList none with
          | [r, g, b] => String.mk (natToHex2 r ++ natToHex2 g ++ natToHex2 b)
          | _ => "000000"

/-- Value of one hexadecimal digit. -/
def hexVal (c : Char) : Nat :=
  if c.isDigit then c.toNat - 48
  else if 'a' ≤ c ∧ c ≤ 'f' then c.toNat - 87
  else if 'A' ≤ c ∧ c ≤ 'F' then c.toNat - 55
  else 0

/-- Modelled from the spec: `utils.parse_color` — "color tokens → RGB";
`none` models the exception path its callers catch. -/
def parse_color (s : String) : Option (Nat × Nat × Nat) :=
  if is_color s then
    match (parse_color_hex s).toList with
    | [a, b, c, d, e, f] =>
        some (16 * hexVal a + hexVal b, 16 * hexVal c + hexVal d,
              16 * hexVal e + hexVal f)
    | _ => none
  else none

/-- `HtmlToDocx.get_word_style_for_element` (h4d.py lines 122–150): class map
first (first matching class token in document order), then tag override,
then `None`. -/
def get_word_style_for_element (style_map tag_style_overrides : Dict)
    (tag : String) (attrs : Dict) : Option String :=
  match dictGet attrs "class" with
  | some classAttr =>
      match (splitWs classAttr).findSome? (fun cls => dictGet style_map cls) with
      | some s => some s
      | none => dictGet tag_style_overrides tag
  | none => dictGet tag_style_overrides tag

/-- Executable rational multiplication (the kernel reduces `mkRat`, unlike
`Rat.mul`). -/
def qmul (a b : ℚ) : ℚ := mkRat (a.num * b.num) (a.den * b.den)

/-- Executable rational addition. -/
def qadd (a b : ℚ) : ℚ := mkRat (a.num * b.den + b.num * a.den) (a.den * b.den)

/-- Executable division of a rational by a natural number. -/
def qdivNat (a : ℚ) (n : Nat) : ℚ := mkRat a.num (a.den * n)

/-- Modelled from the spec: `constants.DEFAULT_BORDER_SIZE` — "Default size
is 0 (no border)". -/
def DEFAULT_BORDER_SIZE : ℚ := mkRat 0 1

/-- Modelled from the spec: `constants.DEFAULT_BORDER_COLOR` — the default
6-hex-digit border color. -/
def DEFAULT_BORDER_COLOR : String := "000000"

/-- Modelled from the spec: `constants.DEFAULT_BORDER_STYLE` — the default
entry of the BorderSpec style set `{none, single, double, dotted, dashed,
wavy, …}`. -/
def DEFAULT_BORDER_STYLE : String := "single"

/-- Modelled from the spec: `constants.BORDER_STYLES` — "known border-style
keyword" table mapping CSS border styles to the Word style names
`{none, single, double, dotted, dashed, wavy}`. -/
def BORDER_STYLES : Dict :=
  [("solid", "single"), ("dashed", "dashed"), ("dotted", "dotted"),
   ("double", "double"), ("wavy", "wavy"), ("none", "none")]

/-- Modelled from the spec: `constants.BORDER_KEYWORDS` — "Keyword lengths
(`thin`, `medium`, `thick`) map to fixed pixel-equivalent values before unit
conversion". -/
def BORDER_KEYWORDS : Dict :=
  [("thin", "1px"), ("medium", "3px"), ("thick", "5px")]

/-- Modelled from the spec: `constants.MAX_INDENT` — "percent × a configured
maximum width" (points). -/
def MAX_INDENT : ℚ := mkRat 396 1

/-- `parse_border_style` (h4d.py lines 354–360): map a CSS border style to
the Word value, defaulting to `none`. -/
def parse_border_style (value : String) : String :=
  (dictGet BORDER_STYLES value).getD "none"

/-- `check_unit_keywords` (h4d.py lines 362–365): convert `thin`/`medium`/
`thick` to numeric pixel values, other values pass through. -/
def check_unit_keywords (value : String) : String :=
  (dictGet BORDER_KEYWORDS (lowerStr value)).getD value

/-- `[0-9]*\.?[0-9]+` — the numeric core of `border_width_pattern`
(h4d.py line 352). -/
def numCoreMatch (cs : List Char) : Bool :=
  let ds1 := cs.takeWhile Char.isDigit
  match cs.drop ds1.length with
  | [] => !ds1.isEmpty
  | '.' :: rest2 => !rest2.isEmpty && rest2.all Char.isDigit
  | _ => false

/-- `border_width_pattern` (h4d.py line 352):
`^[0-9]*\.?[0-9]+(px|pt|cm|in|rem|em|%)$`. -/
def border_width_pattern_match (s : String) : Bool :=
  let cs := s.toList
  let np := cs.takeWhile (fun c => c.isDigit || c = '.')
  let unit := String.mk (cs.drop np.length)
  numCoreMatch np &&
    (unit = "px" || unit = "pt" || unit = "cm" || unit = "in" ||
     unit = "rem" || unit = "em" || unit = "%")

/-- Numeric value of a digit run. -/
def natOfDigits (ds : List Char) : Nat :=
  ds.foldl (fun n c => 10 * n + (c.toNat - 48)) 0

/-- Python `float(...)` on a digits-and-dot string, as a rational;
`none` models the `ValueError` path. -/
def parseFloatQ (cs : List Char) : Option ℚ :=
  let ds1 := cs.takeWhile Char.isDigit
  match cs.drop ds1.length with
  | [] => if ds1.isEmpty then none else some (mkRat (natOfDigits ds1) 1)
  | '.' :: rest2 =>
      if rest2.all Char.isDigit && (!ds1.isEmpty || !rest2.isEmpty) then
        some (qadd (mkRat (natOfDigits ds1) 1)
                   (mkRat (natOfDigits rest2) (10 ^ rest2.length)))
      else none
  | _ => none

/-- `border_unit_converter` (h4d.py lines 367–397): strip `!important`,
expand size keywords, split the token into its non-numeric unit and numeric
value (the two `re.sub` calls), and convert to points; `none` for
unsupported units. -/
def border_unit_converter (unit_value : String) : Option ℚ :=
  let uv := check_unit_keywords (remove_important_from_style unit_value)
  if uv = "" then some DEFAULT_BORDER_SIZE
  else
    let cs := uv.toList
    let unit := String.mk (cs.filter (fun c => !(c.isDigit || c = '.')))
    let valCs := cs.filter (fun c => !(c.isAlpha || c = '!' || c = '%'))
    match parseFloatQ valCs with
    | none => none
    | some value =>
        if unit = "px" then some (qmul value (mkRat 3 4))
        else if unit = "cm" then some (qmul value (mkRat 2835 100))
        else if unit = "in" then some (qmul value (mkRat 72 1))
        else if unit = "pt" then some value
        else if unit = "rem" || unit = "em" then some (qmul value (mkRat 12 1))
        else if unit = "%" then some (qmul MAX_INDENT (qdivNat value 100))
        else none

/-- Python truthiness of `border_unit_converter(x) or default`: both `None`
and `0.0` fall back to the default. -/
def orDefault (x : Option ℚ) (d : ℚ) : ℚ :=
  match x with
  | some v => if v = 0 then d else v
  | none => d

/-- A token the border loop classifies as a size: it matches
`border_width_pattern` or is a size keyword (h4d.py line 420). -/
def isSizeTok (x : String) : Bool :=
  border_width_pattern_match x || dictHas BORDER_KEYWORDS x

/-- A token the border loop classifies as a style (h4d.py line 425). -/
def isStyleTok (x : String) : Bool :=
  dictHas BORDER_STYLES x

/-- The per-token cleaning of the border loop (h4d.py line 417):
`utils.remove_important_from_style(part).lower()`. -/
def cleanTok (part : String) : String :=
  lowerStr (remove_important_from_style part)

/-- The classification loop of `parse_border_value` (h4d.py lines 412–438):
fold the whitespace-separated tokens, filling the (size, style, color)
slots by token shape, then default the size to 1pt when only style/color
were given. -/
def parse_border_value_loop (parts : List String) : ℚ × String × String :=
  let step := fun (acc : Option ℚ × String × String) (part : String) =>
    let clean_part := cleanTok part
    if isSizeTok clean_part then
      (some (orDefault (border_unit_converter clean_part) DEFAULT_BORDER_SIZE),
       acc.2.1, acc.2.2)
    else if isStyleTok clean_part then
      (acc.1, parse_border_style clean_part, acc.2.2)
    else if is_color clean_part then
      (acc.1, acc.2.1, parse_color_hex clean_part)
    else acc
  let r := parts.foldl step (none, DEFAULT_BORDER_STYLE, DEFAULT_BORDER_COLOR)
  match r.1 with
  | some s => (s, r.2.1, r.2.2)
  | none => (mkRat 1 1, r.2.1, r.2.2)

/-- `parse_border_value` (h4d.py lines 399–438): all-defaults for `none` or
empty values, otherwise the order-independent classification loop. -/
def parse_border_value (value : String) : ℚ × String × String :=
  let parts := splitWs value
  if (parts.length = 1 && parts.headD "" = "none") || value = "" || stripStr value = "" then
    (DEFAULT_BORDER_SIZE, DEFAULT_BORDER_STYLE, DEFAULT_BORDER_COLOR)
  else
    parse_border_value_loop parts

/-- Python in-place dict update `d[k] = v`: replace the existing binding of
`k` (keeping its position) or append a new one. -/
def dictInsert : Dict → String → String → Dict
  | [], k, v => [(k, v)]
  | (k', v') :: rest, k, v =>
      if k' = k then (k, v) :: rest else (k', v') :: dictInsert rest k v

/-- Split a character list on a separator character. -/
def splitOnCharAux (sep : Char) : List Char → List Char → List (List Char)
  | [], acc => [acc.reverse]
  | c :: cs, acc =>
      if c = sep then acc.reverse :: splitOnCharAux sep cs []
      else splitOnCharAux sep cs (c :: acc)

/-- Split a character list at the first occurrence of a separator. -/
def breakAtChar (sep : Char) : List Char → Option (List Char × List Char)
  | [] => none
  | c :: cs =>
      if c = sep then some ([], cs)
      else (breakAtChar sep cs).map (fun p => (c :: p.1, p.2))

/-- Modelled from the spec: `utils.parse_dict_string` — parse a CSS
declaration block into a "mapping from CSS property name → value string"
(split on `;`, property before the first `:`, both stripped; later
declarations of the same property overwrite earlier ones as in a Python
dict). -/
def parse_dict_string (s : String) : Dict :=
  (splitOnCharAux ';' s.toList []).foldl
    (fun d decl =>
      match breakAtChar ':' decl with
      | some kv => dictInsert d (String.mk (trimChars kv.1)) (String.mk (trimChars kv.2))
      | none => d)
    []

/-- `"!important" in value.lower()` (h4d.py line 221): case-insensitive
substring test. -/
def containsImpAux : List Char → Bool
  | [] => false
  | c :: cs => (ciMatch "!important".toList (c :: cs)).isSome || containsImpAux cs

/-- Case-insensitive `!important` containment on a string. -/
def containsImportant (v : String) : Bool :=
  containsImpAux v.toList

/-- One step of the `parse_inline_styles` loop (h4d.py lines 219–228):
flagged declarations go, flag stripped, into the important dict; others into
the normal dict. -/
def splitImportantStep (acc : Dict × Dict) (pr : String × String) : Dict × Dict :=
  if containsImportant pr.2 then
    (acc.1, dictInsert acc.2 pr.1 (remove_important_from_style pr.2))
  else
    (dictInsert acc.1 pr.1 pr.2, acc.2)

/-- `HtmlToDocx.parse_inline_styles` (h4d.py lines 200–230): split a style
string into (normal, important) declaration dicts. -/
def parse_inline_styles (style_string : String) : Dict × Dict :=
  if style_string = "" then ([], [])
  else (parse_dict_string style_string).foldl splitImportantStep ([], [])

/-- Modelled from the spec: the keyword entries handled by
`utils.adapt_font_size` ("Adapt font_size when text, ex.: small, medium"),
as pixel lengths. -/
def FONT_SIZE_KEYWORDS : Dict :=
  [("xx-small", "9px"), ("x-small", "10px"), ("small", "13px"),
   ("medium", "16px"), ("large", "18px"), ("x-large", "24px"),
   ("xx-large", "32px")]

/-- Modelled from the spec: `utils.adapt_font_size` — keyword sizes become
pixel lengths, numeric lengths pass through, anything else is falsy. -/
def adapt_font_size (s : String) : Option String :=
  match dictGet FONT_SIZE_KEYWORDS (lowerStr s) with
  | some m => some m
  | none => if s.toList.any Char.isDigit then some s else none

/-- Modelled from the spec: `utils.unit_converter` — the §4.3 conversion
table (px×0.75, cm×28.35, in×72, pt×1, rem/em×12) producing points;
unrecognized units yield "unsupported" (`none`). -/
def unit_converter (s : String) : Option ℚ :=
  let cs := (stripStr s).toList
  let unit := String.mk (cs.filter (fun c => !(c.isDigit || c = '.')))
  let valCs := cs.filter (fun c => c.isDigit || c = '.')
  match parseFloatQ valCs with
  | none => none
  | some value =>
      if unit = "px" then some (qmul value (mkRat 3 4))
      else if unit = "pt" then some value
      else if unit = "cm" then some (qmul value (mkRat 2835 100))
      else if unit = "in" then some (qmul value (mkRat 72 1))
      else if unit = "rem" || unit = "em" then some (qmul value (mkRat 12 1))
      else if unit = "" then some value
      else none

/-- Strip a given quote character from both ends of a character list
(`str.strip('"')`). -/
def stripCharEnds (q : Char) (cs : List Char) : List Char :=
  (((cs.dropWhile (fun c => c = q)).reverse).dropWhile (fun c => c = q)).reverse

/-- The font-family extraction of `apply_inline_styles_to_run` (h4d.py
lines 308–312): first comma-separated family, stripped of spaces and
quotes. -/
def familyName (v : String) : String :=
  String.mk (stripCharEnds '\'' (stripCharEnds '"'
    (trimChars (v.toList.takeWhile (fun c => c ≠ ',')))))

/-- The record returned by `utils.parse_text_decoration`. -/
structure TextDecoration where
  line : List String
  style : String
  color : Option String
deriving DecidableEq

/-- Modelled from the spec: `utils.parse_text_decoration` — classify the
whitespace-separated tokens of a `text-decoration` value into line types,
an underline style, and an optional color. -/
def parse_text_decoration (v : String) : TextDecoration :=
  let toks := splitWs (lowerStr v)
  { line := toks.filter (fun t => t = "underline" || t = "line-through" || t = "overline"),
    style := (toks.find? (fun t => t = "wavy" || t = "double" || t = "dotted" || t = "dashed")).getD "",
    color := toks.find? (fun t => is_color t) }

/-- `re.match("h[1-9]", tag)`: the tag starts with `h` and a digit 1–9. -/
def isHeadingTag (t : String) : Bool :=
  match t.toList with
  | 'h' :: c :: _ => '1' ≤ c && c ≤ '9'
  | _ => false

/-- The font property a tag implies (`constants.FONT_STYLES` values). -/
inductive FontProp
  | bold
  | italic
  | underline
  | strike
deriving DecidableEq

/-- Modelled from the spec: `constants.FONT_STYLES` — "tag-implied font
styles (bold/italic/underline/monospace via explicit tag→property table,
never dynamic attribute dispatch)". -/
def FONT_STYLES : List (String × FontProp) :=
  [("b", FontProp.bold), ("strong", FontProp.bold), ("em", FontProp.italic),
   ("i", FontProp.italic), ("u", FontProp.underline), ("s", FontProp.strike),
   ("del", FontProp.strike)]

/-- Modelled from the spec: `constants.FONT_NAMES` — monospace font for the
code-like tags. -/
def FONT_NAMES : Dict :=
  [("code", "Courier"), ("pre", "Courier")]

/-- The value of `run.font.underline` in python-docx: a boolean flag or one
of the `WD_UNDERLINE` variants used by the translator. -/
inductive UVal
  | onFlag (b : Bool)
  | wavy
  | double
  | dotted
  | dash
deriving DecidableEq

/-- The font attributes of a run that the translator writes. -/
structure RunFont where
  color : Option (Nat × Nat × Nat)
  size : Option ℚ
  bold : Option Bool
  italic : Option Bool
  underline : Option UVal
  strike : Option Bool
  name : Option String
deriving DecidableEq

/-- The per-run state touched by `handle_data`'s style application: the
run's font, the run's character style, and the paragraph shading written by
`add_styles_to_run`'s background-color branch. -/
structure RunState where
  font : RunFont
  charStyle : Option String
  paraShading : Option String
deriving DecidableEq

/-- An all-`None` fresh run. -/
def initRun : RunState :=
  ⟨⟨none, none, none, none, none, none, none⟩, none, none⟩

/-- The `color` branch of `apply_inline_styles_to_run` (h4d.py lines
246–252); the `except: pass` is the `none` case. -/
def applyColorStep (styles : Dict) (st : RunState) : RunState :=
  match dictGet styles "color" with
  | some v =>
      match parse_color v with
      | some rgb => { st with font := { st.font with color := some rgb } }
      | none => st
  | none => st

/-- The `font-size` branch of `apply_inline_styles_to_run` (h4d.py lines
254–261). -/
def applyFontSizeStep (styles : Dict) (st : RunState) : RunState :=
  match dictGet styles "font-size" with
  | some v =>
      match adapt_font_size v with
      | some fs => { st with font := { st.font with size := unit_converter fs } }
      | none => st
  | none => st

/-- The `font-weight` branch of `apply_inline_styles_to_run` (h4d.py lines
263–269). -/
def applyWeightStep (styles : Dict) (st : RunState) : RunState :=
  match dictGet styles "font-weight" with
  | some v =>
      let w := lowerStr v
      if w = "bold" || w = "bolder" || w = "700" || w = "800" || w = "900" then
        { st with font := { st.font with bold := some true } }
      else if w = "normal" || w = "400" then
        { st with font := { st.font with bold := some false } }
      else st
  | none => st

/-- The `font-style` branch of `apply_inline_styles_to_run` (h4d.py lines
271–277). -/
def applyItalicStep (styles : Dict) (st : RunState) : RunState :=
  match dictGet styles "font-style" with
  | some v =>
      let w := lowerStr v
      if w = "italic" || w = "oblique" then
        { st with font := { st.font with italic := some true } }
      else if w = "normal" then
        { st with font := { st.font with italic := some false } }
      else st
  | none => st

/-- The `text-decoration` branch of `apply_inline_styles_to_run` (h4d.py
lines 279–305). -/
def applyDecorationStep (styles : Dict) (st : RunState) : RunState :=
  match dictGet styles "text-decoration" with
  | some v =>
      let d := parse_text_decoration v
      let st :=
        if d.line.contains "underline" then
          { st with font := { st.font with underline := some (UVal.onFlag true) } }
        else st
      let st :=
        if d.line.contains "line-through" then
          { st with font := { st.font with strike := some true } }
        else st
      let st :=
        if d.style = "wavy" then
          { st with font := { st.font with underline := some UVal.wavy } }
        else if d.style = "double" then
          { st with font := { st.font with underline := some UVal.double } }
        else if d.style = "dotted" then
          { st with font := { st.font with underline := some UVal.dotted } }
        else if d.style = "dashed" then
          { st with font := { st.font with underline := some UVal.dash } }
        else st
      match d.color with
      | some c =>
          match parse_color c with
          | some rgb => { st with font := { st.font with color := some rgb } }
          | none => st
      | none => st
  | none => st

/-- The `font-family` branch of `apply_inline_styles_to_run` (h4d.py lines
307–312). -/
def applyFamilyStep (styles : Dict) (st : RunState) : RunState :=
  match dictGet styles "font-family" with
  | some v => { st with font := { st.font with name := some (familyName v) } }
  | none => st

/-- `HtmlToDocx.apply_inline_styles_to_run` (h4d.py lines 232–312): the
property branches in source order; empty dicts return immediately. -/
def apply_inline_styles_to_run (styles : Dict) (st : RunState) : RunState :=
  if styles.isEmpty then st
  else
    applyFamilyStep styles (applyDecorationStep styles (applyItalicStep styles
      (applyWeightStep styles (applyFontSizeStep styles (applyColorStep styles st)))))

/-- `HtmlToDocx.add_styles_to_run` (h4d.py lines 599–628): font-size (with
`remove_important_from_style`), color, and paragraph background shading. -/
def add_styles_to_run (style : Dict) (st : RunState) : RunState :=
  let st :=
    match dictGet style "font-size" with
    | some v0 =>
        match adapt_font_size (remove_important_from_style v0) with
        | some fs => { st with font := { st.font with size := unit_converter fs } }
        | none => st
    | none => st
  let st :=
    match dictGet style "color" with
    | some v =>
        match parse_color v with
        | some rgb => { st with font := { st.font with color := some rgb } }
        | none => st
    | none => st
  match dictGet style "background-color" with
  | some v => { st with paraShading := some (parse_color_hex v) }
  | none => st

/-- `HtmlToDocx.apply_style_to_run` (h4d.py lines 173–198): set the run's
character style when the document knows it, otherwise warn and leave the
run unchanged. -/
def apply_style_to_run (knownCharStyles : List String) (style_name : String)
    (st : RunState) : RunState :=
  if knownCharStyles.contains style_name then { st with charStyle := some style_name }
  else st

/-- `constants.FONT_STYLES` lookup for a tag. -/
def lookupFontStyle (tag : String) : Option FontProp :=
  (FONT_STYLES.find? (fun q => q.1 = tag)).map (fun q => q.2)

/-- `setattr(self.run.font, font_style, True)` (h4d.py lines 1211–1213). -/
def setFontProp (p : FontProp) (st : RunState) : RunState :=
  match p with
  | FontProp.bold => { st with font := { st.font with bold := some true } }
  | FontProp.italic => { st with font := { st.font with italic := some true } }
  | FontProp.underline =>
      { st with font := { st.font with underline := some (UVal.onFlag true) } }
  | FontProp.strike => { st with font := { st.font with strike := some true } }

/-- The style-application sequence of `handle_data` on a new run (h4d.py
lines 1204–1238): span-stack styles, tag-implied font properties and
block-tag inline styles, pending character style, pending normal inline
styles, and pending `!important` inline styles, in source order. -/
def handle_data_styles (spans : List Dict) (tags : List (String × Dict))
    (pendingChar : Option String) (pendingInline pendingImportant : Option Dict)
    (knownCharStyles : List String) (st : RunState) : RunState :=
  let st := spans.foldl
    (fun s attrs =>
      match dictGet attrs "style" with
      | some sty => add_styles_to_run (parse_dict_string sty) s
      | none => s) st
  let st := tags.foldl
    (fun s pr =>
      let s :=
        match lookupFontStyle pr.1 with
        | some p => setFontProp p s
        | none => s
      let s :=
        match dictGet FONT_NAMES pr.1 with
        | some n => { s with font := { s.font with name := some n } }
        | none => s
      if dictHas pr.2 "style" &&
          (pr.1 = "div" || pr.1 = "li" || pr.1 = "p" || pr.1 = "pre" ||
           isHeadingTag pr.1) then
        match dictGet pr.2 "style" with
        | some sty => add_styles_to_run (parse_dict_string sty) s
        | none => s
      else s) st
  let st :=
    match pendingChar with
    | some cs => apply_style_to_run knownCharStyles cs st
    | none => st
  let st :=
    match pendingInline with
    | some d => apply_inline_styles_to_run d st
    | none => st
  match pendingImportant with
  | some d => apply_inline_styles_to_run d st
  | none => st

/-- A table cell as seen by the geometry builder: the parsed
`int(col.get("colspan", 1))` / `int(col.get("rowspan", 1))` values and an
identifier for the cell element. -/
structure HCell where
  colspan : Nat
  rowspan : Nat
  id : Nat
deriving DecidableEq

/-- A table row: its `th`/`td` children in document order. -/
abbrev HRow := List HCell

/-- `sum(int(col.get("colspan", default_span)) for col in cols)`
(h4d.py line 1283). -/
def rowColCount (row : HRow) : Nat :=
  (row.map (fun c => c.colspan)).sum

/-- The loop body of `get_table_dimensions` (h4d.py lines 1280–1290): update
(max_rows, max_cols) for one enumerated row. -/
def dimsStep (acc : Nat × Nat) (pr : Nat × HRow) : Nat × Nat :=
  (pr.2.foldl (fun m c => if 1 < c.rowspan then max m (pr.1 + c.rowspan) else m) acc.1,
   max acc.2 (rowColCount pr.2))

/-- `HtmlToDocx.get_table_dimensions` (h4d.py lines 1266–1292): `(rows,
cols)` of the table grid. -/
def get_table_dimensions (rows : List HRow) : Nat × Nat :=
  if rows.isEmpty then (0, 0)
  else rows.enum.foldl dimsStep (rows.length, 0)

/-- Spec-side formula: how far cells of one row (at index `i`) reach down via
rowspans greater than one. -/
def rowReach (i : Nat) : HRow → Nat
  | [] => 0
  | c :: cs => max (if 1 < c.rowspan then i + c.rowspan else 0) (rowReach i cs)

/-- Spec-side formula: the furthest row any cell's rowspan reaches. -/
def specReach : Nat → List HRow → Nat
  | _, [] => 0
  | i, row :: rest => max (rowReach i row) (specReach (i + 1) rest)

/-- Spec-side formula: "the table's column count is the maximum across rows"
of the colspan sums. -/
def specCols : List HRow → Nat
  | [] => 0
  | row :: rest => max (rowColCount row) (specCols rest)

/-- A placed cell: anchor coordinates and spans recorded by `handle_table`'s
placement loop. -/
structure Placement where
  id : Nat
  row : Nat
  col : Nat
  rowspan : Nat
  colspan : Nat
deriving DecidableEq

/-- The `used_cells` occupancy matrix. -/
abbrev Grid := List (List Bool)

/-- Mark one coordinate of the occupancy matrix used. -/
def setUsed (g : Grid) (r c : Nat) : Grid :=
  g.set r ((g.getD r []).set c true)

/-- `for r in range(row, row+rowspan): for c in range(col, col+colspan):
used_cells[r][c] = True` (h4d.py lines 825–828). -/
def markRegion (g : Grid) (r0 c0 rs cs : Nat) : Grid :=
  (List.range rs).foldl
    (fun g1 dr => (List.range cs).foldl
      (fun g2 dc => setUsed g2 (r0 + dr) (c0 + dc)) g1) g

/-- `while used_cells[cell_row][col_offset]: col_offset += 1` (h4d.py lines
800–801): the first unoccupied column at or after `off`; `none` models the
`IndexError` when the scan runs off the row. -/
def advanceCol (rowUsed : List Bool) (off : Nat) : Option Nat :=
  ((rowUsed.drop off).findIdx? (fun b => !b)).map (fun i => off + i)

/-- Place the cells of one row left to right, maintaining the column cursor
(h4d.py lines 798–846, geometry part). -/
def placeCells (g : Grid) (row : Nat) : List HCell → Nat → Option (Grid × List Placement)
  | [], _ => some (g, [])
  | c :: cs, off =>
      match advanceCol (g.getD row []) off with
      | none => none
      | some col =>
          let g1 :=
            if 1 < c.rowspan ∨ 1 < c.colspan then
              markRegion g row col c.rowspan c.colspan
            else setUsed g row col
          match placeCells g1 row cs (col + c.colspan) with
          | none => none
          | some gp => some (gp.1, ⟨c.id, row, col, c.rowspan, c.colspan⟩ :: gp.2)

/-- The placement phase of `HtmlToDocx.handle_table` (h4d.py lines 796–846):
build the occupancy matrix sized by `get_table_dimensions` and place every
row's cells. -/
def handle_table_place (rows : List HRow) : Option (Grid × List Placement) :=
  let dims := get_table_dimensions rows
  let g0 : Grid := List.replicate dims.1 (List.replicate dims.2 false)
  rows.enum.foldl
    (fun acc pr =>
      match acc with
      | none => none
      | some gp =>
          match placeCells gp.1 pr.1 pr.2 0 with
          | none => none
          | some gp2 => some (gp2.1, gp.2 ++ gp2.2))
    (some (g0, []))

/-- The grid coordinates a placement covers. -/
def coverage (p : Placement) : List (Nat × Nat) :=
  (List.range p.rowspan).flatMap
    (fun dr => (List.range p.colspan).map (fun dc => (p.row + dr, p.col + dc)))

/-- The four pending style slots of the translator state (h4d.py lines
71–74). -/
structure Slots where
  pending_div_style : Option String
  pending_character_style : Option String
  pending_inline_styles : Option Dict
  pending_important_styles : Option Dict
deriving DecidableEq

/-- All slots empty, as after `set_initial_attrs`. -/
def initSlots : Slots := ⟨none, none, none, none⟩

/-- The slot effect of an opening `<span style=...>` (h4d.py lines 975–987):
nonempty parsed normal/important dicts are stored in their slots. -/
def spanStartSlots (attrs : Dict) (sl : Slots) : Slots :=
  match dictGet attrs "style" with
  | some sv =>
      let pr := parse_inline_styles sv
      let sl :=
        if !pr.1.isEmpty then { sl with pending_inline_styles := some pr.1 } else sl
      if !pr.2.isEmpty then { sl with pending_important_styles := some pr.2 } else sl
  | none => sl

/-- The slot-clearing section of `handle_endtag` (h4d.py lines 1115–1136),
applied unconditionally at the start of every end-tag event. -/
def endTagSlots (tag : String) (sl : Slots) : Slots :=
  let sl :=
    if tag = "code" then
      { sl with pending_character_style := none, pending_inline_styles := none,
                pending_important_styles := none }
    else sl
  let sl :=
    if tag = "span" then { sl with pending_important_styles := none } else sl
  let sl :=
    if tag = "div" then { sl with pending_div_style := none } else sl
  if tag = "p" ∨ tag = "pre" then
    { sl with pending_inline_styles := none, pending_important_styles := none }
  else sl

/-- Modelled from the spec: the list entries of `constants.STYLES` — up to
three style variants per list kind ("depth selects among up to three style
variants (base/level-2/level-3 bullet or number styles)"). -/
def STYLES : Dict :=
  [("ol", "List Number"), ("ol2", "List Number 2"), ("ol3", "List Number 3"),
   ("ul", "List Bullet"), ("ul2", "List Bullet 2"), ("ul3", "List Bullet 3")]

/-- Modelled from the spec: `utils.remove_last_occurence` — drop the last
occurrence of an element from a list. -/
def remove_last_occurence (l : List String) (x : String) : List String :=
  (l.reverse.erase x).reverse

/-- Lookup in the `_list_num_ids` cache (keys are `Int` because the missing
instance id falls back to `-1`). -/
def cacheGet : List (Int × Nat) → Int → Option Nat
  | [], _ => none
  | (k0, v) :: rest, k => if k0 = k then some v else cacheGet rest k

/-- `dict.pop(k, None)` on the cache. -/
def cacheErase : List (Int × Nat) → Int → List (Int × Nat)
  | [], _ => []
  | (k0, v) :: rest, k => if k0 = k then rest else (k0, v) :: cacheErase rest k

/-- `d[k] = v` on the cache. -/
def cacheInsert : List (Int × Nat) → Int → Nat → List (Int × Nat)
  | [], k, v => [(k, v)]
  | (k0, v0) :: rest, k, v =>
      if k0 = k then (k, v) :: rest else (k0, v0) :: cacheInsert rest k v

/-- A list-item paragraph: style plus the `w:numPr` numbering assignment. -/
structure LPara where
  style : String
  numId : Option Nat
  ilvl : Option Nat
deriving DecidableEq

/-- The list-related translator state (h4d.py lines 48–62) plus an abstract
view of the document's numbering store: `nextNumId` is the next id
`add_num` hands out and `overrides` records the `startOverride` written for
each allocated id. -/
structure ListState where
  listTags : List String
  current_ol_num_id : Option Int
  list_restart_counter : Int
  numCache : List (Int × Nat)
  nextNumId : Nat
  overrides : List (Nat × Nat)
  paras : List LPara
deriving DecidableEq

/-- The state of a fresh translator before any list event. -/
def initListState : ListState := ⟨[], none, 0, [], 1, [], []⟩

/-- `HtmlToDocx.handle_li` (h4d.py lines 630–692): style by list depth and
kind; for ordered lists, allocate (with a level-0 `startOverride` of 1) and
cache a numbering id under the current `<ol>` instance key on first use,
and reuse the cached id afterwards.  The matching list style is assumed to
carry a numbering definition (`num_id_style is not None`), as the built-in
List Number styles do. -/
def handle_li (st : ListState) : ListState :=
  let list_depth := if st.listTags.length = 0 then 1 else st.listTags.length
  let list_type := st.listTags.getLastD "ul"
  let level := min list_depth 3
  let style_key := if level ≤ 1 then list_type
    else list_type ++ (if level = 2 then "2" else "3")
  let list_style := (dictGet STYLES style_key).getD
    (if list_type = "ol" then "List Number" else "List Bullet")
  if list_type = "ol" then
    let ol_id : Int :=
      match st.current_ol_num_id with
      | some n => n
      | none => -1
    match cacheGet st.numCache ol_id with
    | some cached =>
        { st with paras := st.paras ++ [⟨list_style, some cached, some (level - 1)⟩] }
    | none =>
        { st with
          nextNumId := st.nextNumId + 1,
          overrides := st.overrides ++ [(st.nextNumId, 1)],
          numCache := cacheInsert st.numCache ol_id st.nextNumId,
          paras := st.paras ++ [⟨list_style, some st.nextNumId, some (level - 1)⟩] }
  else
    { st with paras := st.paras ++ [⟨list_style, none, none⟩] }

/-- The list-related markup events. -/
inductive LEv
  | olStart
  | ulStart
  | li
  | olEnd
  | ulEnd
deriving DecidableEq

/-- One list event: `<ol>`/`<ul>` opens (h4d.py lines 989–998), `<li>`
(`handle_li`), and closes (h4d.py lines 1154–1159). -/
def listStep (st : ListState) (e : LEv) : ListState :=
  match e with
  | LEv.olStart =>
      { st with
        list_restart_counter := st.list_restart_counter + 1,
        current_ol_num_id := some (st.list_restart_counter + 1),
        listTags := st.listTags ++ ["ol"] }
  | LEv.ulStart =>
      { st with current_ol_num_id := none, listTags := st.listTags ++ ["ul"] }
  | LEv.li => handle_li st
  | LEv.olEnd =>
      { st with
        listTags := remove_last_occurence st.listTags "ol",
        numCache :=
          match st.current_ol_num_id with
          | some k => cacheErase st.numCache k
          | none => st.numCache,
        current_ol_num_id := none }
  | LEv.ulEnd =>
      { st with listTags := remove_last_occurence st.listTags "ul" }

/-- Run a list-event sequence from the fresh state. -/
def runList (evs : List LEv) : ListState :=
  evs.foldl listStep initListState

/-- Modelled from the spec: `utils.check_style_exists` — "A resolved style
name is validated against the target document's known style set". -/
def check_style_exists (knownStyles : List String) (name : String) : Bool :=
  knownStyles.contains name

/-- The configuration relevant to block-style resolution: the constructor
arguments of `HtmlToDocx` plus the document's known styles and the
`styles`/`style-map`/`tag-override` option combination (`use_styles ∨
use_tag_overrides`). -/
structure C3Config where
  style_map : Dict
  tag_style_overrides : Dict
  default_paragraph_style : Option String
  knownStyles : List String
  useStyles : Bool

/-- A document paragraph: its style name and its runs' texts. -/
structure Para where
  style : String
  runs : List String
deriving DecidableEq

/-- The translator state for the paragraph/div fragment of the event
machine: the document paragraphs, whether `self.paragraph` is set (the
current paragraph is the last one), `in_li`, and the pending style
slots. -/
structure C3State where
  doc : List Para
  paragraph : Bool
  in_li : Bool
  slots : Slots
deriving DecidableEq

/-- The fresh state of `set_initial_attrs`. -/
def initC3 : C3State := ⟨[], false, false, initSlots⟩

/-- `HtmlToDocx.apply_style_to_paragraph` (h4d.py lines 152–171): set the
style when the document knows it, otherwise warn and leave the default. -/
def apply_style_to_paragraph (knownStyles : List String) (p : Para)
    (style_name : String) : Para :=
  if check_style_exists knownStyles style_name then { p with style := style_name }
  else p

/-- Append a run to the last (current) paragraph. -/
def appendRunToLast : List Para → String → List Para
  | [], _ => []
  | [p], d => [{ p with runs := p.runs ++ [d] }]
  | p :: rest, d => p :: appendRunToLast rest d

/-- Markup events for the paragraph-level machines. -/
inductive CEv
  | start (tag : String) (attrs : Dict)
  | stop (tag : String)
  | txt (s : String)

/-- One event of the paragraph/div machine, from `handle_starttag`
(h4d.py lines 1010–1055: custom-style resolution, `p`, `div`),
`handle_endtag` (slot clearing) and `handle_data` (lines 1172–1202,
paragraph/run bookkeeping; run-level styling is the separate
`handle_data_styles`).  The `<p style=...>` inline-slot effect (lines
1037–1044) has the same shape as the span one, so `spanStartSlots` is
reused for it. -/
def c3Step (cfg : C3Config) (st : C3State) (e : CEv) : C3State :=
  match e with
  | CEv.start tag attrs =>
      let custom0 :=
        if cfg.useStyles then
          get_word_style_for_element cfg.style_map cfg.tag_style_overrides tag attrs
        else none
      let custom :=
        match custom0 with
        | some cs => if check_style_exists cfg.knownStyles cs then some cs else none
        | none => none
      if tag = "p" then
        if !st.in_li then
          let sty :=
            match st.slots.pending_div_style with
            | some s => some s
            | none =>
                match custom with
                | some s => some s
                | none => cfg.default_paragraph_style
          let p1 :=
            match sty with
            | some s => apply_style_to_paragraph cfg.knownStyles ⟨"Normal", []⟩ s
            | none => (⟨"Normal", []⟩ : Para)
          { st with doc := st.doc ++ [p1], paragraph := true,
                    slots := spanStartSlots attrs st.slots }
        else
          { st with slots := spanStartSlots attrs st.slots }
      else if tag = "div" then
        if custom.isSome && !st.in_li then
          { st with slots := { st.slots with pending_div_style := custom } }
        else
          { st with doc := st.doc ++ [⟨"Normal", []⟩], paragraph := true }
      else st
  | CEv.stop tag => { st with slots := endTagSlots tag st.slots }
  | CEv.txt s =>
      let data := stripStr s
      if !st.paragraph && data = "" then st
      else
        let st :=
          if !st.paragraph then
            { st with doc := st.doc ++ [⟨"Normal", []⟩], paragraph := true }
          else st
        { st with doc := appendRunToLast st.doc data }

/-- Run the paragraph/div machine from the fresh state. -/
def runC3 (cfg : C3Config) (evs : List CEv) : C3State :=
  evs.foldl (c3Step cfg) initC3

/-- Parsed markup: a text node or an element with attributes and children
(the tree BeautifulSoup hands to the table machinery). -/
inductive Html
  | text (s : String)
  | elem (tag : String) (attrs : Dict) (children : List Html)

/-- The children of an element (empty for text nodes). -/
def childrenOf : Html → List Html
  | Html.text _ => []
  | Html.elem _ _ ch => ch

/-- Document-model blocks: paragraphs and tables (a table records its
`add_table(rows, cols)` dimensions and the per-cell block lists). -/
inductive Block
  | para (style : String) (runs : List String)
  | table (rows : Nat) (cols : Nat) (cells : List (List (List Block)))

/-- Whether a block is a table. -/
def isTableB : Block → Bool
  | Block.table _ _ _ => true
  | _ => false

/-- Whether a block is a paragraph (`doc.paragraphs` membership). -/
def isParaB : Block → Bool
  | Block.para _ _ => true
  | _ => false

/-- The content of cell `(r, c)` of a table block. -/
def cellDoc : Block → Nat → Nat → List Block
  | Block.table _ _ cells, r, c => (cells.getD r []).getD c []
  | _, _, _ => []

/-- The runs of the first paragraph of a block list. -/
def firstParaRuns (blocks : List Block) : List String :=
  match blocks.filter isParaB with
  | Block.para _ runs :: _ => runs
  | _ => []

/-- The style of the first paragraph of a block list. -/
def firstParaStyle (blocks : List Block) : Option String :=
  match blocks.filter isParaB with
  | Block.para sty _ :: _ => some sty
  | _ => none

/-- Flatten a markup forest to the open/close/text events `HTMLParser.feed`
produces; the fuel bounds the tree depth (structural recursion so concrete
runs evaluate). -/
def toEventsF : Nat → List Html → List CEv
  | 0, _ => []
  | _ + 1, [] => []
  | fuel + 1, Html.text s :: rest => CEv.txt s :: toEventsF fuel rest
  | fuel + 1, Html.elem tag attrs ch :: rest =>
      CEv.start tag attrs ::
        (toEventsF fuel ch ++ (CEv.stop tag :: toEventsF fuel rest))

/-- `soup.find_all("table")`: every table element in document (pre-)order;
the fuel bounds the tree depth. -/
def findTablesF : Nat → List Html → List Html
  | 0, _ => []
  | _ + 1, [] => []
  | fuel + 1, Html.text _ :: rest => findTablesF fuel rest
  | fuel + 1, Html.elem tag attrs ch :: rest =>
      (if tag = "table" then [Html.elem tag attrs ch] else [])
        ++ findTablesF fuel ch ++ findTablesF fuel rest

/-- `HtmlToDocx.ignore_nested_tables` (h4d.py lines 1240–1256): keep only
top-level tables by skipping, after each kept table, as many following
entries as it has nested tables. -/
def ignoreNestedAux (fuel : Nat) : List Html → Nat → List Html
  | [], _ => []
  | t :: rest, nest =>
      if 0 < nest then ignoreNestedAux fuel rest (nest - 1)
      else t :: ignoreNestedAux fuel rest (findTablesF fuel (childrenOf t)).length

/-- `ignore_nested_tables` on a `find_all` result. -/
def ignore_nested_tables (fuel : Nat) (tables_soup : List Html) : List Html :=
  ignoreNestedAux fuel tables_soup 0

/-- `int(col.get(k, 1))` for span attributes; non-numeric values are
modelled as the default. -/
def attrSpan (attrs : Dict) (k : String) : Nat :=
  match dictGet attrs k with
  | some v => if v.toList ≠ [] ∧ v.toList.all Char.isDigit then natOfDigits v.toList else 1
  | none => 1

/-- Whether an element is a `tr`. -/
def isTr : Html → Bool
  | Html.elem tag _ _ => tag = "tr"
  | _ => false

/-- Modelled from the spec: `get_table_rows` via the default row-container
selector list — "header rows, body rows, footer rows, then any direct row
children". -/
def getTableRows (t : Html) : List Html :=
  let ch := childrenOf t
  let sect := fun (name : String) =>
    ch.flatMap (fun c =>
      match c with
      | Html.elem tag _ inner => if tag = name then inner.filter isTr else []
      | _ => [])
  sect "thead" ++ sect "tbody" ++ sect "tfoot" ++ ch.filter isTr

/-- `get_table_columns` (h4d.py lines 1262–1264): the row's direct `th`/`td`
children. -/
def getTableCols (row : Html) : List Html :=
  (childrenOf row).filter (fun c =>
    match c with
    | Html.elem tag _ _ => tag = "th" || tag = "td"
    | _ => false)

/-- The `HCell` geometry view of a row (colspan/rowspan parsing of
`get_table_dimensions`). -/
def rowSpecOf (row : Html) : HRow :=
  (getTableCols row).map (fun c =>
    match c with
    | Html.elem _ attrs _ => ⟨attrSpan attrs "colspan", attrSpan attrs "rowspan", 0⟩
    | _ => ⟨1, 1, 0⟩)

/-- A cell ready for placement: spans and content, with `th` content wrapped
in `<b>` (h4d.py lines 806–808). -/
structure TCell where
  rowspan : Nat
  colspan : Nat
  content : List Html

/-- The placement view of a row's cells. -/
def tcellsOf (row : Html) : List TCell :=
  (getTableCols row).map (fun c =>
    match c with
    | Html.elem tag attrs ch =>
        ⟨attrSpan attrs "rowspan", attrSpan attrs "colspan",
         if tag = "th" then [Html.elem "b" [] ch] else ch⟩
    | _ => ⟨1, 1, []⟩)

/-- `re.findall(r"[A-Z][a-z]*|[0-9]", style)` (h4d.py line 786). -/
def styleTokensAux : Nat → List Char → List String
  | 0, _ => []
  | _ + 1, [] => []
  | fuel + 1, c :: cs =>
      if c.isUpper then
        String.mk (c :: cs.takeWhile Char.isLower)
          :: styleTokensAux fuel (cs.dropWhile Char.isLower)
      else if c.isDigit then String.mk [c] :: styleTokensAux fuel cs
      else styleTokensAux fuel cs

/-- Join strings with single spaces (`" ".join(...)`). -/
def joinSpace : List String → String
  | [] => ""
  | [x] => x
  | x :: rest => x ++ " " ++ joinSpace rest

/-- The table-style normalization of `handle_table` (h4d.py lines 785–787). -/
def normalizeStyle (s : String) : String :=
  joinSpace (styleTokensAux s.toList.length s.toList)

/-- The translator configuration relevant to tables: `self.table_style`,
the document's table styles, and the `tables` option. -/
structure TConfig where
  table_style : Option String
  knownTableStyles : List String
  include_tables : Bool

/-- The event-machine state of one translator instance (h4d.py lines
47–62): document blocks, current paragraph flag, the skip region, the
top-level table list with its cursor, and a raised-exception marker. -/
structure TState where
  doc : List Block
  paragraph : Bool
  skip : Bool
  skip_tag : Option String
  instances_to_skip : Nat
  tables : List Html
  table_no : Nat
  err : Option String

/-- Write a cell's translated content into the cells grid. -/
def setCellContent (cells : List (List (List Block))) (r c : Nat)
    (doc : List Block) : List (List (List Block)) :=
  cells.set r ((cells.getD r []).set c doc)

/-- Append a run to the last (current) paragraph block. -/
def appendRunB : List Block → String → List Block
  | [], _ => []
  | [Block.para sty runs], d => [Block.para sty (runs ++ [d])]
  | [b], _ => [b]
  | b :: rest, d => b :: appendRunB rest d

/-- Delete the first paragraph (`utils.delete_paragraph(cell.paragraphs[0])`,
h4d.py lines 1326–1327). -/
def removeFirstPara : List Block → List Block
  | [] => []
  | Block.para _ _ :: rest => rest
  | b :: rest => b :: removeFirstPara rest

/-- The tail of `add_html_to_cell` (h4d.py lines 1322–1333) around a
translation result: the placeholder-stripped cell plus the translated
blocks, with an empty paragraph appended when the translation produced no
paragraph (cells must end with a paragraph). -/
def cellPost (cell1 : List Block) : List Block × Option String → List Block × Option String
  | (blocks, some e) => (cell1 ++ blocks, some e)
  | (blocks, none) =>
      let out := cell1 ++ blocks
      if (out.filter isParaB).isEmpty then (out ++ [Block.para "Normal" [""]], none)
      else (out, none)

/-- The cell-placement-and-fill loop of `handle_table` over one row's cells
(h4d.py lines 798–846), parameterized by the child-translator call
`cellFn`. -/
def fillRowCells (cellFn : List Html → List Block × Option String) (row : Nat) :
    List TCell → Nat → Grid → List (List (List Block)) →
    Grid × List (List (List Block)) × Option String
  | [], _, g, cells => (g, cells, none)
  | c :: cs, off, g, cells =>
      match advanceCol (g.getD row []) off with
      | none => (g, cells, some "IndexError")
      | some col =>
          let g1 :=
            if 1 < c.rowspan ∨ 1 < c.colspan then
              markRegion g row col c.rowspan c.colspan
            else setUsed g row col
          match cellFn c.content with
          | (cdoc, some e) => (g1, setCellContent cells row col cdoc, some e)
          | (cdoc, none) =>
              fillRowCells cellFn row cs (col + c.colspan) g1
                (setCellContent cells row col cdoc)

/-- The row loop of `handle_table`'s placement phase. -/
def fillRows (cellFn : List Html → List Block × Option String) :
    List (Nat × List TCell) → Grid → List (List (List Block)) →
    List (List (List Block)) × Option String
  | [], _, cells => (cells, none)
  | (ri, rcells) :: rest, g, cells =>
      match fillRowCells cellFn ri rcells 0 g cells with
      | (_, cells2, some e) => (cells2, some e)
      | (g2, cells2, none) => fillRows cellFn rest g2 cells2

/-- `HtmlToDocx.handle_table` (h4d.py lines 767–856): add the table (the
first document mutation), validate the table style (raising `ValueError`
on an unknown name, after the table was added), fill the cells through
child translators, and finally enter the skip region with
`instances_to_skip = len(table_soup.find_all("table"))`. -/
def handleTableHtml (fuel : Nat) (cellFn : List Html → List Block × Option String)
    (cfg : TConfig) (t : Html) (st : TState) : TState :=
  let rowsHtml := getTableRows t
  let dims := get_table_dimensions (rowsHtml.map rowSpecOf)
  let g0 : Grid := List.replicate dims.1 (List.replicate dims.2 false)
  let cells0 : List (List (List Block)) :=
    List.replicate dims.1 (List.replicate dims.2 [])
  let styleErr : Option String :=
    match cfg.table_style with
    | some ts =>
        if cfg.knownTableStyles.contains (normalizeStyle ts) then none
        else some "ValueError: Unable to apply style"
    | none => none
  match styleErr with
  | some e => { st with doc := st.doc ++ [Block.table dims.1 dims.2 cells0], err := some e }
  | none =>
      match fillRows cellFn (rowsHtml.enum.map (fun pr => (pr.1, tcellsOf pr.2))) g0 cells0 with
      | (cellsF, some e) =>
          { st with doc := st.doc ++ [Block.table dims.1 dims.2 cellsF], err := some e }
      | (cellsF, none) =>
          { st with
            doc := st.doc ++ [Block.table dims.1 dims.2 cellsF],
            instances_to_skip := (findTablesF fuel (childrenOf t)).length,
            skip_tag := some "table",
            skip := true }

/-- One markup event of the table-level machine: the `head`/`body`/`p`/
`table` branches of `handle_starttag` (h4d.py lines 962–1089), the
skip-region logic of `handle_endtag` (lines 1138–1166), and the
paragraph/run bookkeeping of `handle_data` (lines 1172–1202).  A raised
exception (`err`) stops all further processing. -/
def stepEv (fuel : Nat) (cellFn : List Html → List Block × Option String)
    (cfg : TConfig) (st : TState) (e : CEv) : TState :=
  if st.err.isSome then st
  else
    match e with
    | CEv.start tag _ =>
        if st.skip then st
        else if tag = "head" then
          { st with skip := true, skip_tag := some "head", instances_to_skip := 0 }
        else if tag = "body" then st
        else if tag = "p" then
          { st with doc := st.doc ++ [Block.para "Normal" []], paragraph := true }
        else if tag = "table" then
          if cfg.include_tables then
            match st.tables.get? st.table_no with
            | some t => handleTableHtml fuel cellFn cfg t st
            | none => { st with err := some "IndexError: tables" }
          else st
        else st
    | CEv.stop tag =>
        if st.skip then
          if tag ≠ st.skip_tag.getD "" then st
          else if 0 < st.instances_to_skip then
            { st with instances_to_skip := st.instances_to_skip - 1 }
          else
            let st := { st with skip := false, skip_tag := none, paragraph := false }
            if tag = "table" ∧ cfg.include_tables then
              { st with table_no := st.table_no + 1, paragraph := false }
            else st
        else
          if tag = "table" ∧ cfg.include_tables then
            { st with table_no := st.table_no + 1, paragraph := false }
          else st
    | CEv.txt s =>
        if st.skip then st
        else
          let data := stripStr s
          if !st.paragraph ∧ data = "" then st
          else if !st.paragraph then
            { st with doc := appendRunB (st.doc ++ [Block.para "Normal" []]) data,
                      paragraph := true }
          else { st with doc := appendRunB st.doc data }

/-- `run_process` for one fragment (h4d.py lines 1294–1309): discover the
top-level tables, then feed the events. -/
def translateCore (fuel : Nat) (cellFn : List Html → List Block × Option String)
    (cfg : TConfig) (nodes : List Html) : List Block × Option String :=
  let tables := ignore_nested_tables fuel (findTablesF fuel nodes)
  let st0 : TState := ⟨[], false, false, none, 0, tables, 0, none⟩
  let stF := (toEventsF fuel nodes).foldl (stepEv fuel cellFn cfg) st0
  (stF.doc, stF.err)

/-- One full translator run with a fuel bound on the table-nesting depth;
each table cell is translated by a fresh child instance
(`add_html_to_cell` on a fresh one-paragraph cell) at smaller fuel. -/
def translateFuel : Nat → TConfig → List Html → List Block × Option String
  | 0, _, _ => ([], some "fuel")
  | fuel + 1, cfg, nodes =>
      translateCore (fuel + 1)
        (fun ns =>
          cellPost (removeFirstPara [Block.para "Normal" [""]])
            (translateFuel fuel cfg ns))
        cfg nodes

/-- `HtmlToDocx.add_html_to_cell` (h4d.py lines 1322–1333): delete the
placeholder paragraph, translate into the cell, and guarantee a final
paragraph. -/
def add_html_to_cell (fuel : Nat) (cfg : TConfig) (cell : List Block)
    (nodes : List Html) : List Block × Option String :=
  cellPost (removeFirstPara cell) (translateFuel fuel cfg nodes)

/-- A Python argument as seen by the entry-point type checks. -/
inductive PyArg
  | strArg (nodes : List Html)
  | docArg
  | cellArg
  | otherArg

/-- `HtmlToDocx.add_html_to_document` (h4d.py lines 1311–1320): argument
validation happens before `set_initial_attrs`/`run_process`, so a type
error yields no mutation at all. -/
def add_html_to_document (fuel : Nat) (cfg : TConfig) (html target : PyArg) :
    List Block × Option String :=
  match html with
  | PyArg.strArg nodes =>
      match target with
      | PyArg.docArg => translateFuel fuel cfg nodes
      | PyArg.cellArg => translateFuel fuel cfg nodes
      | _ => ([], some "ValueError: second argument type")
  | _ => ([], some "ValueError: first argument type")

/-- A one-cell table holding the text `x`. -/
def innerTableEx : Html :=
  Html.elem "table" [] [Html.elem "tr" [] [Html.elem "td" [] [Html.text "x"]]]

/-- A one-cell table whose single cell contains `innerTableEx`. -/
def outerTableEx : Html :=
  Html.elem "table" [] [Html.elem "tr" [] [Html.elem "td" [] [innerTableEx]]]

/-- A fallback block for `getD`. -/
def defaultBlock : Block := Block.para "" []

theorem findSome_eq_of_first (f : String → Option String) :
    ∀ (l : List String) (i : Nat) (h : i < l.length),
      (∀ j, (hj : j < i) → f (l.get ⟨j, by omega⟩) = none) →
      (f (l.get ⟨i, h⟩)).isSome →
      l.findSome? f = f (l.get ⟨i, h⟩) := by
  intro l
  induction l with
  | nil => intro i h; exact absurd h (by simp)
  | cons a t ih =>
      intro i h hnone hsome
      cases i with
      | zero =>
          simp only [List.get] at hsome ⊢
          simp only [List.findSome?]
          cases hfa : f a with
          | none => rw [hfa] at hsome; simp at hsome
          | some v => rfl
      | succ n =>
          have ha : f a = none := by
            have := hnone 0 (Nat.succ_pos n)
            simpa using this
          simp only [List.findSome?, ha]
          have h' : n < t.length := by simpa using h
          have := ih n h' (fun j hj => by
            have := hnone (j + 1) (by omega)
            simpa using this)
          simp only [List.get] at this hsome ⊢
          exact this (by simpa using hsome)

example : H4D.splitWs "z b" = ["z", "b"] := by decide

example :
    (H4D.runList [H4D.LEv.olStart, H4D.LEv.li, H4D.LEv.olStart, H4D.LEv.li,
        H4D.LEv.olEnd, H4D.LEv.li, H4D.LEv.olEnd]).paras
      = [⟨"List Number", some 1, some 0⟩, ⟨"List Number 2", some 2, some 1⟩,
         ⟨"List Number", some 3, some 0⟩] := by decide

example :
    (H4D.runList [H4D.LEv.olStart, H4D.LEv.li, H4D.LEv.olEnd, H4D.LEv.olStart,
        H4D.LEv.li, H4D.LEv.olEnd]).paras
      = [⟨"List Number", some 1, some 0⟩, ⟨"List Number", some 2, some 0⟩] := by decide

example :
    (H4D.runList [H4D.LEv.olStart, H4D.LEv.li, H4D.LEv.olEnd, H4D.LEv.olStart,
        H4D.LEv.li, H4D.LEv.olEnd]).overrides = [(1, 1), (2, 1)] := by decide

example : (H4D.translateFuel 10 ⟨none, [], true⟩ [H4D.outerTableEx]).2 = none := by decide

example :
    ((H4D.translateFuel 10 ⟨none, [], true⟩ [H4D.outerTableEx]).1.filter
      H4D.isTableB).length = 1 ∧
    (H4D.translateFuel 10 ⟨none, [], true⟩ [H4D.outerTableEx]).1.length = 1 := by decide

example :
    ((H4D.cellDoc
        ((H4D.translateFuel 10 ⟨none, [], true⟩ [H4D.outerTableEx]).1.getD 0
          H4D.defaultBlock) 0 0).filter H4D.isTableB).length = 1 := by decide

example :
    H4D.firstParaRuns
      (H4D.cellDoc
        (((H4D.cellDoc
            ((H4D.translateFuel 10 ⟨none, [], true⟩ [H4D.outerTableEx]).1.getD 0
              H4D.defaultBlock) 0 0).filter H4D.isTableB).getD 0 H4D.defaultBlock)
        0 0) = ["x"] := by decide

example :
    (H4D.translateFuel 10 ⟨some "Bogus", ["Table Grid"], true⟩
      [Html.elem "p" [] [Html.text "hi"], H4D.innerTableEx]).2
      = some "ValueError: Unable to apply style" ∧
    (H4D.translateFuel 10 ⟨some "Bogus", ["Table Grid"], true⟩
      [Html.elem "p" [] [Html.text "hi"], H4D.innerTableEx]).1.length = 2 := by decide

example :
    (H4D.add_html_to_cell 5 ⟨none, [], true⟩ [H4D.Block.para "Marker" ["orig"]] []).2
      = none ∧
    (H4D.add_html_to_cell 5 ⟨none, [], true⟩ [H4D.Block.para "Marker" ["orig"]] []).1.length
      = 1 ∧
    H4D.firstParaStyle
      (H4D.add_html_to_cell 5 ⟨none, [], true⟩ [H4D.Block.para "Marker" ["orig"]] []).1
      = some "Normal" := by decide

example : H4D.parse_border_value "1px solid #ff0000" = (mkRat 3 4, "single", "FF0000") := by decide

example : H4D.parse_border_value "#ff0000 solid 1px" = (mkRat 3 4, "single", "FF0000") := by decide

example : H4D.border_unit_converter "1px" = some (mkRat 3 4) := by decide

example : H4D.is_color "#ff0000" = true := by decide

example : H4D.isSizeTok "1px" = true ∧ H4D.isSizeTok "solid" = false ∧ H4D.isSizeTok "#ff0000" = false := by decide

example : H4D.isStyleTok "solid" = true ∧ H4D.isStyleTok "#ff0000" = false := by decide

example :
    H4D.get_word_style_for_element [("a", "Heading 1")] [("h1", "Heading 2")]
      "h1" [("class", "a")] = some "Heading 1" := by decide

/-- C1: style resolution returns the style of the first class token (in
document order) present in the class map; only if no class token matches does
it fall back to the tag-override map (and hence to `none` when neither
matches); in particular `<h1 class="a">` with class map `a ↦ Heading 1` and
tag override `h1 ↦ Heading 2` resolves to `Heading 1`. -/
theorem claim_C1_style_resolution :
    (∀ (sm ov : H4D.Dict) (tag : String) (attrs : H4D.Dict) (classAttr : String)
       (i : Nat) (h : i < (H4D.splitWs classAttr).length),
       H4D.dictGet attrs "class" = some classAttr →
       (∀ j, (hj : j < i) → H4D.dictGet sm ((H4D.splitWs classAttr).get ⟨j, by omega⟩) = none) →
       (H4D.dictGet sm ((H4D.splitWs classAttr).get ⟨i, h⟩)).isSome →
       H4D.get_word_style_for_element sm ov tag attrs
         = H4D.dictGet sm ((H4D.splitWs classAttr).get ⟨i, h⟩)) ∧
    (∀ (sm ov : H4D.Dict) (tag : String) (attrs : H4D.Dict) (classAttr : String),
       H4D.dictGet attrs "class" = some classAttr →
       (∀ cls ∈ H4D.splitWs classAttr, H4D.dictGet sm cls = none) →
       H4D.get_word_style_for_element sm ov tag attrs = H4D.dictGet ov tag) ∧
    (∀ (sm ov : H4D.Dict) (tag : String) (attrs : H4D.Dict),
       H4D.dictGet attrs "class" = none →
       H4D.get_word_style_for_element sm ov tag attrs = H4D.dictGet ov tag) ∧
    H4D.get_word_style_for_element [("a", "Heading 1")] [("h1", "Heading 2")]
      "h1" [("class", "a")] = some "Heading 1" := by
  refine ⟨?_, ?_, ?_, by decide⟩
  · intro sm ov tag attrs classAttr i h hattr hfirst hsome
    unfold H4D.get_word_style_for_element
    rw [hattr]
    dsimp only
    rw [H4D.findSome_eq_of_first (fun cls => H4D.dictGet sm cls) (H4D.splitWs classAttr) i h hfirst hsome]
    cases hv : H4D.dictGet sm ((H4D.splitWs classAttr).get ⟨i, h⟩) with
    | none => rw [hv] at hsome; simp at hsome
    | some v => rfl
  · intro sm ov tag attrs classAttr hattr hall
    unfold H4D.get_word_style_for_element
    rw [hattr]
    dsimp only
    have : (H4D.splitWs classAttr).findSome? (fun cls => H4D.dictGet sm cls) = none := by
      rw [List.findSome?_eq_none_iff]
      exact hall
    rw [this]
  · intro sm ov tag attrs hattr
    unfold H4D.get_word_style_for_element
    rw [hattr]

/-- Witness for C1: the general first-match statement at a concrete input
where the first class token is unmapped and the second is mapped. -/
theorem claim_C1_style_resolution_witness :
    H4D.get_word_style_for_element [("a", "Heading 1"), ("b", "Quote")]
      [("h1", "Heading 2")] "h1" [("class", "z b")]
      = H4D.dictGet [("a", "Heading 1"), ("b", "Quote")]
          ((H4D.splitWs "z b").get ⟨1, by decide⟩) :=
  claim_C1_style_resolution.1 [("a", "Heading 1"), ("b", "Quote")]
    [("h1", "Heading 2")] "h1" [("class", "z b")] "z b" 1 (by decide) (by decide)
    (fun j hj => by
      have hj0 : j = 0 := Nat.lt_one_iff.mp hj
      subst hj0
      exact rfl)
    (by decide)

theorem splitWsAux_nil_of_all_ws (cs : List Char)
    (h : ∀ c ∈ cs, c.isWhitespace = true) : H4D.splitWsAux cs [] = [] := by
  induction cs with
  | nil => rfl
  | cons c cs ih =>
      have hc : c.isWhitespace = true := h c (by simp)
      simp only [H4D.splitWsAux, hc, if_true]
      exact ih (fun x hx => h x (by simp [hx]))

theorem strip_empty_all_ws (s : String) (h : H4D.stripStr s = "") :
    ∀ c ∈ s.toList, c.isWhitespace = true := by
  intro c hc
  have h' : H4D.trimChars s.toList = ([] : List Char) := congrArg String.toList h
  unfold H4D.trimChars at h'
  rw [List.reverse_eq_nil_iff, List.dropWhile_eq_nil_iff] at h'
  have hdrop : ∀ x ∈ s.toList.dropWhile Char.isWhitespace, x.isWhitespace = true := by
    intro x hx
    exact h' x (List.mem_reverse.mpr hx)
  have hsplit := List.takeWhile_append_dropWhile (p := Char.isWhitespace) (l := s.toList)
  rw [← hsplit] at hc
  rcases List.mem_append.mp hc with htake | hdropmem
  · exact List.mem_takeWhile_imp htake
  · exact hdrop c hdropmem

theorem splitWs_conds (value : String) (hne : H4D.splitWs value ≠ []) :
    ¬(value = "") ∧ ¬(H4D.stripStr value = "") := by
  constructor
  · intro h
    subst h
    exact hne rfl
  · intro h
    exact hne (splitWsAux_nil_of_all_ws value.toList (strip_empty_all_ws value h))

theorem border_loop_perm_eval (sz st co : String)
    (hsz : H4D.isSizeTok (H4D.cleanTok sz) = true)
    (hst1 : H4D.isSizeTok (H4D.cleanTok st) = false)
    (hst2 : H4D.isStyleTok (H4D.cleanTok st) = true)
    (hco1 : H4D.isSizeTok (H4D.cleanTok co) = false)
    (hco2 : H4D.isStyleTok (H4D.cleanTok co) = false)
    (hco3 : H4D.is_color (H4D.cleanTok co) = true) :
    ∀ l : List String,
      (l = [sz, st, co] ∨ l = [sz, co, st] ∨ l = [st, sz, co] ∨
       l = [st, co, sz] ∨ l = [co, sz, st] ∨ l = [co, st, sz]) →
      H4D.parse_border_value_loop l =
        (H4D.orDefault (H4D.border_unit_converter (H4D.cleanTok sz))
           H4D.DEFAULT_BORDER_SIZE,
         H4D.parse_border_style (H4D.cleanTok st),
         H4D.parse_color_hex (H4D.cleanTok co)) := by
  intro l hl
  rcases hl with h | h | h | h | h | h <;> subst h <;>
    simp [H4D.parse_border_value_loop, List.foldl, hsz, hst1, hst2, hco1, hco2, hco3]

/-- C7: a border shorthand whose whitespace-separated tokens are a size
token, a style token and a color token, in any of the six orders, is
classified token-by-token by shape; in particular `1px solid #ff0000` (all
orders) resolves to size 3/4 pt, style `single`, color `FF0000`. -/
theorem claim_C7_border_shorthand :
    (∀ (value sz st co : String) (l : List String),
       H4D.isSizeTok (H4D.cleanTok sz) = true →
       H4D.isSizeTok (H4D.cleanTok st) = false →
       H4D.isStyleTok (H4D.cleanTok st) = true →
       H4D.isSizeTok (H4D.cleanTok co) = false →
       H4D.isStyleTok (H4D.cleanTok co) = false →
       H4D.is_color (H4D.cleanTok co) = true →
       (l = [sz, st, co] ∨ l = [sz, co, st] ∨ l = [st, sz, co] ∨
        l = [st, co, sz] ∨ l = [co, sz, st] ∨ l = [co, st, sz]) →
       H4D.splitWs value = l →
       H4D.parse_border_value value =
         (H4D.orDefault (H4D.border_unit_converter (H4D.cleanTok sz))
            H4D.DEFAULT_BORDER_SIZE,
          H4D.parse_border_style (H4D.cleanTok st),
          H4D.parse_color_hex (H4D.cleanTok co))) ∧
    H4D.parse_border_value "1px solid #ff0000" = (mkRat 3 4, "single", "FF0000") ∧
    H4D.parse_border_value "1px #ff0000 solid" = (mkRat 3 4, "single", "FF0000") ∧
    H4D.parse_border_value "solid 1px #ff0000" = (mkRat 3 4, "single", "FF0000") ∧
    H4D.parse_border_value "solid #ff0000 1px" = (mkRat 3 4, "single", "FF0000") ∧
    H4D.parse_border_value "#ff0000 1px solid" = (mkRat 3 4, "single", "FF0000") ∧
    H4D.parse_border_value "#ff0000 solid 1px" = (mkRat 3 4, "single", "FF0000") := by
  refine ⟨?_, by decide, by decide, by decide, by decide, by decide, by decide⟩
  intro value sz st co l hsz hst1 hst2 hco1 hco2 hco3 hl hsplit
  have hne : H4D.splitWs value ≠ [] := by
    rcases hl with h | h | h | h | h | h <;> simp [hsplit, h]
  obtain ⟨hv, hs⟩ := splitWs_conds value hne
  unfold H4D.parse_border_value
  rw [hsplit]
  have hlen : l.length = 3 := by
    rcases hl with h | h | h | h | h | h <;> simp [h]
  rw [if_neg]
  · exact border_loop_perm_eval sz st co hsz hst1 hst2 hco1 hco2 hco3 l hl
  · simp [hlen, hv, hs]

/-- Witness for C7: the general classification statement applied to the
concrete shorthand `1px solid #ff0000`. -/
theorem claim_C7_border_shorthand_witness :
    H4D.parse_border_value "1px solid #ff0000" =
      (H4D.orDefault (H4D.border_unit_converter (H4D.cleanTok "1px"))
         H4D.DEFAULT_BORDER_SIZE,
       H4D.parse_border_style (H4D.cleanTok "solid"),
       H4D.parse_color_hex (H4D.cleanTok "#ff0000")) :=
  claim_C7_border_shorthand.1 "1px solid #ff0000" "1px" "solid" "#ff0000"
    ["1px", "solid", "#ff0000"] (by decide) (by decide) (by decide) (by decide)
    (by decide) (by decide) (Or.inl rfl) (by decide)

theorem dictGet_dictInsert (d : H4D.Dict) (k v k' : String) :
    H4D.dictGet (H4D.dictInsert d k v) k' =
      if k' = k then some v else H4D.dictGet d k' := by
  induction d with
  | nil =>
      by_cases h : k' = k
      · subst h
        simp [H4D.dictInsert, H4D.dictGet]
      · have h2 : ¬(k = k') := fun hc => h hc.symm
        simp [H4D.dictInsert, H4D.dictGet, h, h2]
  | cons pr rest ih =>
      obtain ⟨k0, v0⟩ := pr
      by_cases h0 : k0 = k
      · subst h0
        by_cases h : k' = k0
        · subst h
          simp [H4D.dictInsert, H4D.dictGet]
        · have h2 : ¬(k0 = k') := fun hc => h hc.symm
          simp [H4D.dictInsert, H4D.dictGet, h, h2]
      · by_cases h : k0 = k'
        · subst h
          have h2 : ¬(k0 = k) := h0
          simp [H4D.dictInsert, H4D.dictGet, h0, h2]
        · have h2 : ¬(k' = k0) := fun hc => h hc.symm
          simp [H4D.dictInsert, H4D.dictGet, h0, h, ih]

theorem split_normal_no_flag (l : H4D.Dict) :
    ∀ acc : H4D.Dict × H4D.Dict,
      (∀ k v, H4D.dictGet acc.1 k = some v → H4D.containsImportant v = false) →
      ∀ k v, H4D.dictGet (l.foldl H4D.splitImportantStep acc).1 k = some v →
        H4D.containsImportant v = false := by
  induction l with
  | nil => intro acc hacc; exact hacc
  | cons pr rest ih =>
      intro acc hacc
      simp only [List.foldl]
      apply ih
      intro k v hkv
      unfold H4D.splitImportantStep at hkv
      by_cases hf : H4D.containsImportant pr.2 = true
      · rw [if_pos hf] at hkv
        exact hacc k v hkv
      · rw [if_neg hf] at hkv
        simp only at hkv
        rw [dictGet_dictInsert] at hkv
        by_cases hk : k = pr.1
        · rw [if_pos hk] at hkv
          have hv : v = pr.2 := by injection hkv with h; exact h.symm
          subst hv
          simpa using hf
        · rw [if_neg hk] at hkv
          exact hacc k v hkv

theorem applyColorStep_sets (d : H4D.Dict) (st : H4D.RunState) (v : String)
    (rgb : Nat × Nat × Nat) (h1 : H4D.dictGet d "color" = some v)
    (h2 : H4D.parse_color v = some rgb) :
    (H4D.applyColorStep d st).font.color = some rgb := by
  unfold H4D.applyColorStep
  rw [h1]
  dsimp only
  rw [h2]

theorem applyFontSizeStep_sets (d : H4D.Dict) (st : H4D.RunState) (v fs : String)
    (h1 : H4D.dictGet d "font-size" = some v)
    (h2 : H4D.adapt_font_size v = some fs) :
    (H4D.applyFontSizeStep d st).font.size = H4D.unit_converter fs := by
  unfold H4D.applyFontSizeStep
  rw [h1]
  dsimp only
  rw [h2]

theorem applyFontSizeStep_color (d : H4D.Dict) (st : H4D.RunState) :
    (H4D.applyFontSizeStep d st).font.color = st.font.color := by
  unfold H4D.applyFontSizeStep
  cases H4D.dictGet d "font-size" with
  | none => rfl
  | some v =>
      dsimp only
      cases H4D.adapt_font_size v <;> rfl

theorem applyWeightStep_sets (d : H4D.Dict) (st : H4D.RunState) (v : String)
    (h1 : H4D.dictGet d "font-weight" = some v)
    (h2 : (H4D.lowerStr v = "bold" || H4D.lowerStr v = "bolder" ||
           H4D.lowerStr v = "700" || H4D.lowerStr v = "800" ||
           H4D.lowerStr v = "900") = true) :
    (H4D.applyWeightStep d st).font.bold = some true := by
  unfold H4D.applyWeightStep
  rw [h1]
  dsimp only
  rw [if_pos (by simpa using h2)]

theorem applyWeightStep_color (d : H4D.Dict) (st : H4D.RunState) :
    (H4D.applyWeightStep d st).font.color = st.font.color := by
  unfold H4D.applyWeightStep
  cases H4D.dictGet d "font-weight" with
  | none => rfl
  | some v =>
      dsimp only
      split
      · rfl
      · split <;> rfl

theorem applyWeightStep_size (d : H4D.Dict) (st : H4D.RunState) :
    (H4D.applyWeightStep d st).font.size = st.font.size := by
  unfold H4D.applyWeightStep
  cases H4D.dictGet d "font-weight" with
  | none => rfl
  | some v =>
      dsimp only
      split
      · rfl
      · split <;> rfl

theorem applyItalicStep_sets (d : H4D.Dict) (st : H4D.RunState) (v : String)
    (h1 : H4D.dictGet d "font-style" = some v)
    (h2 : (H4D.lowerStr v = "italic" || H4D.lowerStr v = "oblique") = true) :
    (H4D.applyItalicStep d st).font.italic = some true := by
  unfold H4D.applyItalicStep
  rw [h1]
  dsimp only
  rw [if_pos (by simpa using h2)]

theorem applyItalicStep_color (d : H4D.Dict) (st : H4D.RunState) :
    (H4D.applyItalicStep d st).font.color = st.font.color := by
  unfold H4D.applyItalicStep
  cases H4D.dictGet d "font-style" with
  | none => rfl
  | some v =>
      dsimp only
      split
      · rfl
      · split <;> rfl

theorem applyItalicStep_size (d : H4D.Dict) (st : H4D.RunState) :
    (H4D.applyItalicStep d st).font.size = st.font.size := by
  unfold H4D.applyItalicStep
  cases H4D.dictGet d "font-style" with
  | none => rfl
  | some v =>
      dsimp only
      split
      · rfl
      · split <;> rfl

theorem applyItalicStep_bold (d : H4D.Dict) (st : H4D.RunState) :
    (H4D.applyItalicStep d st).font.bold = st.font.bold := by
  unfold H4D.applyItalicStep
  cases H4D.dictGet d "font-style" with
  | none => rfl
  | some v =>
      dsimp only
      split
      · rfl
      · split <;> rfl

theorem applyDecorationStep_none (d : H4D.Dict) (st : H4D.RunState)
    (h : H4D.dictGet d "text-decoration" = none) :
    H4D.applyDecorationStep d st = st := by
  unfold H4D.applyDecorationStep
  rw [h]

theorem applyDecorationStep_size (d : H4D.Dict) (st : H4D.RunState) :
    (H4D.applyDecorationStep d st).font.size = st.font.size := by
  unfold H4D.applyDecorationStep
  cases H4D.dictGet d "text-decoration" with
  | none => rfl
  | some v =>
      dsimp only
      repeat' split
      all_goals rfl

theorem applyDecorationStep_bold (d : H4D.Dict) (st : H4D.RunState) :
    (H4D.applyDecorationStep d st).font.bold = st.font.bold := by
  unfold H4D.applyDecorationStep
  cases H4D.dictGet d "text-decoration" with
  | none => rfl
  | some v =>
      dsimp only
      repeat' split
      all_goals rfl

theorem applyDecorationStep_italic (d : H4D.Dict) (st : H4D.RunState) :
    (H4D.applyDecorationStep d st).font.italic = st.font.italic := by
  unfold H4D.applyDecorationStep
  cases H4D.dictGet d "text-decoration" with
  | none => rfl
  | some v =>
      dsimp only
      repeat' split
      all_goals rfl

theorem applyFamilyStep_sets (d : H4D.Dict) (st : H4D.RunState) (v : String)
    (h : H4D.dictGet d "font-family" = some v) :
    (H4D.applyFamilyStep d st).font.name = some (H4D.familyName v) := by
  unfold H4D.applyFamilyStep
  rw [h]

theorem applyFamilyStep_color (d : H4D.Dict) (st : H4D.RunState) :
    (H4D.applyFamilyStep d st).font.color = st.font.color := by
  unfold H4D.applyFamilyStep
  cases H4D.dictGet d "font-family" <;> rfl

theorem applyFamilyStep_size (d : H4D.Dict) (st : H4D.RunState) :
    (H4D.applyFamilyStep d st).font.size = st.font.size := by
  unfold H4D.applyFamilyStep
  cases H4D.dictGet d "font-family" <;> rfl

theorem applyFamilyStep_bold (d : H4D.Dict) (st : H4D.RunState) :
    (H4D.applyFamilyStep d st).font.bold = st.font.bold := by
  unfold H4D.applyFamilyStep
  cases H4D.dictGet d "font-family" <;> rfl

theorem applyFamilyStep_italic (d : H4D.Dict) (st : H4D.RunState) :
    (H4D.applyFamilyStep d st).font.italic = st.font.italic := by
  unfold H4D.applyFamilyStep
  cases H4D.dictGet d "font-family" <;> rfl

theorem dict_isEmpty_false_of_get (d : H4D.Dict) (k v : String)
    (h : H4D.dictGet d k = some v) : d.isEmpty = false := by
  cases d with
  | nil => simp [H4D.dictGet] at h
  | cons a t => rfl

theorem apply_inline_color (d : H4D.Dict) (st : H4D.RunState) (v : String)
    (rgb : Nat × Nat × Nat) (h1 : H4D.dictGet d "color" = some v)
    (h2 : H4D.parse_color v = some rgb)
    (h3 : H4D.dictGet d "text-decoration" = none) :
    (H4D.apply_inline_styles_to_run d st).font.color = some rgb := by
  unfold H4D.apply_inline_styles_to_run
  rw [if_neg (by simp [dict_isEmpty_false_of_get d _ _ h1])]
  rw [applyFamilyStep_color, applyDecorationStep_none d _ h3,
    applyItalicStep_color, applyWeightStep_color, applyFontSizeStep_color]
  exact applyColorStep_sets d st v rgb h1 h2

theorem apply_inline_size (d : H4D.Dict) (st : H4D.RunState) (v fs : String)
    (h1 : H4D.dictGet d "font-size" = some v)
    (h2 : H4D.adapt_font_size v = some fs) :
    (H4D.apply_inline_styles_to_run d st).font.size = H4D.unit_converter fs := by
  unfold H4D.apply_inline_styles_to_run
  rw [if_neg (by simp [dict_isEmpty_false_of_get d _ _ h1])]
  rw [applyFamilyStep_size, applyDecorationStep_size, applyItalicStep_size,
    applyWeightStep_size]
  exact applyFontSizeStep_sets d _ v fs h1 h2

theorem apply_inline_bold (d : H4D.Dict) (st : H4D.RunState) (v : String)
    (h1 : H4D.dictGet d "font-weight" = some v)
    (h2 : (H4D.lowerStr v = "bold" || H4D.lowerStr v = "bolder" ||
           H4D.lowerStr v = "700" || H4D.lowerStr v = "800" ||
           H4D.lowerStr v = "900") = true) :
    (H4D.apply_inline_styles_to_run d st).font.bold = some true := by
  unfold H4D.apply_inline_styles_to_run
  rw [if_neg (by simp [dict_isEmpty_false_of_get d _ _ h1])]
  rw [applyFamilyStep_bold, applyDecorationStep_bold, applyItalicStep_bold]
  exact applyWeightStep_sets d _ v h1 h2

theorem apply_inline_italic (d : H4D.Dict) (st : H4D.RunState) (v : String)
    (h1 : H4D.dictGet d "font-style" = some v)
    (h2 : (H4D.lowerStr v = "italic" || H4D.lowerStr v = "oblique") = true) :
    (H4D.apply_inline_styles_to_run d st).font.italic = some true := by
  unfold H4D.apply_inline_styles_to_run
  rw [if_neg (by simp [dict_isEmpty_false_of_get d _ _ h1])]
  rw [applyFamilyStep_italic, applyDecorationStep_italic]
  exact applyItalicStep_sets d _ v h1 h2

theorem apply_inline_name (d : H4D.Dict) (st : H4D.RunState) (v : String)
    (h1 : H4D.dictGet d "font-family" = some v) :
    (H4D.apply_inline_styles_to_run d st).font.name = some (H4D.familyName v) := by
  unfold H4D.apply_inline_styles_to_run
  rw [if_neg (by simp [dict_isEmpty_false_of_get d _ _ h1])]
  exact applyFamilyStep_sets d _ v h1

/-- C2: `!important` inline declarations are stored apart from normal ones
by `parse_inline_styles` (the normal dict never carries the flag), and on a
text-data run they are applied by `handle_data` strictly after every other
style source, so for each examined property an important declaration
determines the run's final value regardless of span styles, tag-implied
properties, pending character style, and normal inline styles. -/
theorem claim_C2_important_precedence :
    (∀ (spans : List H4D.Dict) (tags : List (String × H4D.Dict))
       (pc : Option String) (pi : Option H4D.Dict) (d : H4D.Dict)
       (known : List String) (st : H4D.RunState),
       H4D.handle_data_styles spans tags pc pi (some d) known st
         = H4D.apply_inline_styles_to_run d
             (H4D.handle_data_styles spans tags pc pi none known st)) ∧
    (∀ (s k v : String),
       H4D.dictGet (H4D.parse_inline_styles s).1 k = some v →
       H4D.containsImportant v = false) ∧
    H4D.parse_inline_styles "color: gray; font-size: 12px !important"
      = ([("color", "gray")], [("font-size", "12px")]) ∧
    (∀ spans tags pc pi known st (d : H4D.Dict) (v : String)
       (rgb : Nat × Nat × Nat),
       H4D.dictGet d "color" = some v → H4D.parse_color v = some rgb →
       H4D.dictGet d "text-decoration" = none →
       (H4D.handle_data_styles spans tags pc pi (some d) known st).font.color
         = some rgb) ∧
    (∀ spans tags pc pi known st (d : H4D.Dict) (v fs : String),
       H4D.dictGet d "font-size" = some v →
       H4D.adapt_font_size v = some fs →
       (H4D.handle_data_styles spans tags pc pi (some d) known st).font.size
         = H4D.unit_converter fs) ∧
    (∀ spans tags pc pi known st (d : H4D.Dict) (v : String),
       H4D.dictGet d "font-weight" = some v →
       (H4D.lowerStr v = "bold" || H4D.lowerStr v = "bolder" ||
        H4D.lowerStr v = "700" || H4D.lowerStr v = "800" ||
        H4D.lowerStr v = "900") = true →
       (H4D.handle_data_styles spans tags pc pi (some d) known st).font.bold
         = some true) ∧
    (∀ spans tags pc pi known st (d : H4D.Dict) (v : String),
       H4D.dictGet d "font-style" = some v →
       (H4D.lowerStr v = "italic" || H4D.lowerStr v = "oblique") = true →
       (H4D.handle_data_styles spans tags pc pi (some d) known st).font.italic
         = some true) ∧
    (∀ spans tags pc pi known st (d : H4D.Dict) (v : String),
       H4D.dictGet d "font-family" = some v →
       (H4D.handle_data_styles spans tags pc pi (some d) known st).font.name
         = some (H4D.familyName v)) := by
  refine ⟨?_, ?_, by decide, ?_, ?_, ?_, ?_, ?_⟩
  · intro spans tags pc pi d known st
    rfl
  · intro s k v h
    unfold H4D.parse_inline_styles at h
    by_cases hs : s = ""
    · rw [if_pos hs] at h
      simp [H4D.dictGet] at h
    · rw [if_neg hs] at h
      exact split_normal_no_flag (H4D.parse_dict_string s) ([], [])
        (fun k v h => by simp [H4D.dictGet] at h) k v h
  · intro spans tags pc pi known st d v rgb h1 h2 h3
    rw [(by rfl :
      H4D.handle_data_styles spans tags pc pi (some d) known st
        = H4D.apply_inline_styles_to_run d
            (H4D.handle_data_styles spans tags pc pi none known st))]
    exact apply_inline_color d _ v rgb h1 h2 h3
  · intro spans tags pc pi known st d v fs h1 h2
    rw [(by rfl :
      H4D.handle_data_styles spans tags pc pi (some d) known st
        = H4D.apply_inline_styles_to_run d
            (H4D.handle_data_styles spans tags pc pi none known st))]
    exact apply_inline_size d _ v fs h1 h2
  · intro spans tags pc pi known st d v h1 h2
    rw [(by rfl :
      H4D.handle_data_styles spans tags pc pi (some d) known st
        = H4D.apply_inline_styles_to_run d
            (H4D.handle_data_styles spans tags pc pi none known st))]
    exact apply_inline_bold d _ v h1 h2
  · intro spans tags pc pi known st d v h1 h2
    rw [(by rfl :
      H4D.handle_data_styles spans tags pc pi (some d) known st
        = H4D.apply_inline_styles_to_run d
            (H4D.handle_data_styles spans tags pc pi none known st))]
    exact apply_inline_italic d _ v h1 h2
  · intro spans tags pc pi known st d v h1
    rw [(by rfl :
      H4D.handle_data_styles spans tags pc pi (some d) known st
        = H4D.apply_inline_styles_to_run d
            (H4D.handle_data_styles spans tags pc pi none known st))]
    exact apply_inline_name d _ v h1

/-- Witness for C2: the color-override statement at a concrete input where
the span stack, a bold tag, and the normal inline styles all compete with a
`color: red !important` declaration. -/
theorem claim_C2_important_precedence_witness :
    (H4D.handle_data_styles [[("style", "color: gray")]] [("b", [])] none
       (some [("color", "blue")]) (some [("color", "red")]) [] H4D.initRun).font.color
      = some (255, 0, 0) :=
  claim_C2_important_precedence.2.2.2.1 [[("style", "color: gray")]]
    [("b", [])] none (some [("color", "blue")]) [] H4D.initRun
    [("color", "red")] "red" (255, 0, 0) (by decide) (by decide) (by decide)

theorem rowFold_eq (i : Nat) (row : H4D.HRow) : ∀ a : Nat,
    row.foldl (fun m c => if 1 < c.rowspan then max m (i + c.rowspan) else m) a
      = max a (H4D.rowReach i row) := by
  induction row with
  | nil => intro a; simp [H4D.rowReach]
  | cons c cs ih =>
      intro a
      simp only [List.foldl, H4D.rowReach]
      by_cases h : 1 < c.rowspan
      · rw [if_pos h, if_pos h, ih]
        omega
      · rw [if_neg h, if_neg h, ih]
        omega

theorem dims_foldl (l : List H4D.HRow) : ∀ (i a b : Nat),
    (List.enumFrom i l).foldl H4D.dimsStep (a, b)
      = (max a (H4D.specReach i l), max b (H4D.specCols l)) := by
  induction l with
  | nil =>
      intro i a b
      simp [H4D.specReach, H4D.specCols]
  | cons row rest ih =>
      intro i a b
      simp only [List.enumFrom, List.foldl]
      have hstep : H4D.dimsStep (a, b) (i, row)
          = (max a (H4D.rowReach i row), max b (H4D.rowColCount row)) := by
        unfold H4D.dimsStep
        dsimp only
        rw [rowFold_eq]
      rw [hstep, ih,
        show H4D.specReach i (row :: rest)
            = max (H4D.rowReach i row) (H4D.specReach (i + 1) rest) from rfl,
        show H4D.specCols (row :: rest)
            = max (H4D.rowColCount row) (H4D.specCols rest) from rfl]
      simp only [Prod.mk.injEq]
      exact ⟨by omega, by omega⟩

/-- C4: the built grid's dimensions are the number of row elements extended
by rowspans reaching past the last row, and the maximum over rows of the
colspan sums; concretely, a `colspan=2 rowspan=2` cell placed at the origin
covers exactly `{(0,0),(0,1),(1,0),(1,1)}` and no other placed cell covers
any of those coordinates. -/
theorem claim_C4_table_geometry :
    (∀ rows : List H4D.HRow,
       H4D.get_table_dimensions rows
         = (max rows.length (H4D.specReach 0 rows), H4D.specCols rows)) ∧
    H4D.get_table_dimensions [[⟨2, 2, 0⟩, ⟨1, 1, 1⟩], [⟨1, 1, 2⟩]] = (2, 3) ∧
    H4D.handle_table_place [[⟨2, 2, 0⟩, ⟨1, 1, 1⟩], [⟨1, 1, 2⟩]]
      = some ([[true, true, true], [true, true, true]],
              [⟨0, 0, 0, 2, 2⟩, ⟨1, 0, 2, 1, 1⟩, ⟨2, 1, 2, 1, 1⟩]) ∧
    H4D.coverage ⟨0, 0, 0, 2, 2⟩ = [(0, 0), (0, 1), (1, 0), (1, 1)] ∧
    ((H4D.coverage ⟨1, 0, 2, 1, 1⟩ ++ H4D.coverage ⟨2, 1, 2, 1, 1⟩).all
      (fun xy => !((H4D.coverage ⟨0, 0, 0, 2, 2⟩).contains xy))) = true := by
  refine ⟨?_, by decide, by decide, by decide, by decide⟩
  intro rows
  unfold H4D.get_table_dimensions
  cases rows with
  | nil => simp [H4D.specReach, H4D.specCols]
  | cons r rs =>
      simp only [List.isEmpty_cons, Bool.false_eq_true, if_false]
      rw [show (r :: rs).enum = List.enumFrom 0 (r :: rs) from rfl]
      rw [dims_foldl]
      simp

/-- C8 counterexample: a `<span>` whose opening tag stores both normal and
important inline styles; after processing `</span>`, the important slot is
cleared but the normal inline slot still holds the span's styles — the
claim that both slots are cleared is false on the code. -/
theorem claim_C8_counterexample :
    (H4D.spanStartSlots [("style", "color: red; font-weight: bold !important")]
        H4D.initSlots).pending_inline_styles = some [("color", "red")] ∧
    (H4D.spanStartSlots [("style", "color: red; font-weight: bold !important")]
        H4D.initSlots).pending_important_styles = some [("font-weight", "bold")] ∧
    (H4D.endTagSlots "span"
        (H4D.spanStartSlots [("style", "color: red; font-weight: bold !important")]
          H4D.initSlots)).pending_important_styles = none ∧
    (H4D.endTagSlots "span"
        (H4D.spanStartSlots [("style", "color: red; font-weight: bold !important")]
          H4D.initSlots)).pending_inline_styles = some [("color", "red")] := by
  refine ⟨by decide, by decide, by decide, by decide⟩

/-- C8 (amended): `</code>` clears the character, normal-inline and
important slots; `</div>` clears the block (div) slot; `</p>`/`</pre>`
clear the normal-inline and important slots; but `</span>` clears only the
important slot — normal inline styles set by a span persist past its
closing tag. -/
theorem claim_C8_slot_clearing :
    (∀ sl : H4D.Slots, H4D.endTagSlots "code" sl =
      { sl with pending_character_style := none, pending_inline_styles := none,
                pending_important_styles := none }) ∧
    (∀ sl : H4D.Slots, H4D.endTagSlots "div" sl =
      { sl with pending_div_style := none }) ∧
    (∀ sl : H4D.Slots, H4D.endTagSlots "p" sl =
      { sl with pending_inline_styles := none, pending_important_styles := none }) ∧
    (∀ sl : H4D.Slots, H4D.endTagSlots "pre" sl =
      { sl with pending_inline_styles := none, pending_important_styles := none }) ∧
    (∀ sl : H4D.Slots, H4D.endTagSlots "span" sl =
      { sl with pending_important_styles := none }) ∧
    (∀ sl : H4D.Slots, (H4D.endTagSlots "span" sl).pending_inline_styles
      = sl.pending_inline_styles) := by
  refine ⟨?_, ?_, ?_, ?_, ?_, ?_⟩ <;> intro sl <;> rfl

theorem cacheGet_cacheInsert (c : List (Int × Nat)) (k : Int) (v : Nat) :
    H4D.cacheGet (H4D.cacheInsert c k v) k = some v := by
  induction c with
  | nil => simp [H4D.cacheInsert, H4D.cacheGet]
  | cons pr rest ih =>
      obtain ⟨k0, v0⟩ := pr
      by_cases h : k0 = k
      · subst h
        simp [H4D.cacheInsert, H4D.cacheGet]
      · simp [H4D.cacheInsert, H4D.cacheGet, h, ih]

/-- C6 counterexample: `<ol><li>a<ol><li>b</li></ol></li><li>c</li></ol>` —
the inner `</ol>` resets `current_ol_num_id`, so the outer list's next
`<li>` looks up the sentinel key `-1`, misses the cache, and allocates a
fresh numbering id (3) instead of reusing the outer list's cached id (1):
a subsequent `<li>` sibling of the same `<ol>` does not reuse the cached
id. -/
theorem claim_C6_counterexample :
    (H4D.runList [H4D.LEv.olStart, H4D.LEv.li, H4D.LEv.olStart, H4D.LEv.li,
        H4D.LEv.olEnd, H4D.LEv.li, H4D.LEv.olEnd]).paras
      = [⟨"List Number", some 1, some 0⟩, ⟨"List Number 2", some 2, some 1⟩,
         ⟨"List Number", some 3, some 0⟩] ∧
    ((H4D.runList [H4D.LEv.olStart, H4D.LEv.li, H4D.LEv.olStart, H4D.LEv.li,
        H4D.LEv.olEnd, H4D.LEv.li, H4D.LEv.olEnd]).paras.getD 2
        ⟨"", none, none⟩).numId
      ≠ ((H4D.runList [H4D.LEv.olStart, H4D.LEv.li, H4D.LEv.olStart, H4D.LEv.li,
        H4D.LEv.olEnd, H4D.LEv.li, H4D.LEv.olEnd]).paras.getD 0
        ⟨"", none, none⟩).numId := by
  refine ⟨by decide, by decide⟩

/-- C6 (amended): a numbering id is allocated with a level-0 start-override
of 1 and cached on the first `<li>` of an `<ol>` instance; an immediately
subsequent sibling `<li>` (while the instance key is still current) reuses
the cached id without a new allocation; closing the `<ol>` discards the
cache entry and resets the current key; sibling `<ol>`s therefore each
restart at 1.  However, after a nested `<ol>` closes, the current key is
gone, so a later `<li>` of the outer list allocates a fresh restart-at-1 id
under the sentinel key `-1` instead of reusing the outer list's cached
id. -/
theorem claim_C6_list_numbering :
    (∀ (st : H4D.ListState) (k : Int),
       st.listTags.getLastD "ul" = "ol" →
       st.current_ol_num_id = some k →
       H4D.cacheGet st.numCache k = none →
       ((H4D.handle_li st).paras.getLastD ⟨"", none, none⟩).numId
           = some st.nextNumId ∧
       (H4D.handle_li st).overrides = st.overrides ++ [(st.nextNumId, 1)] ∧
       H4D.cacheGet (H4D.handle_li st).numCache k = some st.nextNumId ∧
       (H4D.handle_li st).nextNumId = st.nextNumId + 1) ∧
    (∀ (st : H4D.ListState) (k : Int) (cached : Nat),
       st.listTags.getLastD "ul" = "ol" →
       st.current_ol_num_id = some k →
       H4D.cacheGet st.numCache k = some cached →
       ((H4D.handle_li st).paras.getLastD ⟨"", none, none⟩).numId = some cached ∧
       (H4D.handle_li st).overrides = st.overrides ∧
       (H4D.handle_li st).numCache = st.numCache ∧
       (H4D.handle_li st).nextNumId = st.nextNumId) ∧
    (∀ (st : H4D.ListState) (k : Int),
       st.current_ol_num_id = some k →
       (H4D.listStep st H4D.LEv.olEnd).numCache = H4D.cacheErase st.numCache k ∧
       (H4D.listStep st H4D.LEv.olEnd).current_ol_num_id = none) ∧
    (H4D.runList [H4D.LEv.olStart, H4D.LEv.li, H4D.LEv.olEnd]).numCache = [] ∧
    (H4D.runList [H4D.LEv.olStart, H4D.LEv.li, H4D.LEv.olEnd, H4D.LEv.olStart,
        H4D.LEv.li, H4D.LEv.olEnd]).paras
      = [⟨"List Number", some 1, some 0⟩, ⟨"List Number", some 2, some 0⟩] ∧
    (H4D.runList [H4D.LEv.olStart, H4D.LEv.li, H4D.LEv.olEnd, H4D.LEv.olStart,
        H4D.LEv.li, H4D.LEv.olEnd]).overrides = [(1, 1), (2, 1)] ∧
    (H4D.runList [H4D.LEv.olStart, H4D.LEv.li, H4D.LEv.olStart, H4D.LEv.li,
        H4D.LEv.olEnd, H4D.LEv.li, H4D.LEv.olEnd]).overrides
      = [(1, 1), (2, 1), (3, 1)] := by
  refine ⟨?_, ?_, ?_, by decide, by decide, by decide, by decide⟩
  · intro st k hlast hcur hcache
    simp only [H4D.handle_li, hlast, hcur, hcache]
    refine ⟨?_, ?_, ?_, ?_⟩ <;>
      simp [List.getLastD_concat, cacheGet_cacheInsert]
  · intro st k cached hlast hcur hcache
    simp only [H4D.handle_li, hlast, hcur, hcache]
    refine ⟨?_, ?_, ?_, ?_⟩ <;>
      simp [List.getLastD_concat]
  · intro st k hcur
    simp [H4D.listStep, hcur]

/-- Witness for C6: the allocation statement at the state reached right
after a single `<ol>` open. -/
theorem claim_C6_list_numbering_witness :
    ((H4D.handle_li ⟨["ol"], some 1, 1, [], 1, [], []⟩).paras.getLastD
        ⟨"", none, none⟩).numId = some 1 ∧
    (H4D.handle_li ⟨["ol"], some 1, 1, [], 1, [], []⟩).overrides = [(1, 1)] ∧
    H4D.cacheGet (H4D.handle_li ⟨["ol"], some 1, 1, [], 1, [], []⟩).numCache 1
      = some 1 ∧
    (H4D.handle_li ⟨["ol"], some 1, 1, [], 1, [], []⟩).nextNumId = 2 :=
  claim_C6_list_numbering.1 ⟨["ol"], some 1, 1, [], 1, [], []⟩ 1
    (by decide) (by decide) (by decide)

/-- C3: a block style set by an enclosing styled `<div>` is applied to every
child `<p>` until the `</div>` clears it: while `pending_div_style` holds a
known style it styles each new paragraph, a styled `<div>` open sets it
without emitting a paragraph, `</div>` discards it, and the concrete
three-paragraph document from the claim carries `No Spacing` thrice and the
sibling `<p>` after the `</div>` falls back to the default style. -/
theorem claim_C3_div_style_inheritance :
    (∀ (cfg : H4D.C3Config) (st : H4D.C3State) (attrs : H4D.Dict) (s : String),
       st.slots.pending_div_style = some s →
       st.in_li = false →
       H4D.check_style_exists cfg.knownStyles s = true →
       (H4D.c3Step cfg st (H4D.CEv.start "p" attrs)).doc = st.doc ++ [⟨s, []⟩]) ∧
    (∀ (cfg : H4D.C3Config) (st : H4D.C3State) (attrs : H4D.Dict) (cs : String),
       st.in_li = false →
       cfg.useStyles = true →
       H4D.get_word_style_for_element cfg.style_map cfg.tag_style_overrides
         "div" attrs = some cs →
       H4D.check_style_exists cfg.knownStyles cs = true →
       (H4D.c3Step cfg st (H4D.CEv.start "div" attrs)).slots.pending_div_style
           = some cs ∧
       (H4D.c3Step cfg st (H4D.CEv.start "div" attrs)).doc = st.doc) ∧
    (∀ (cfg : H4D.C3Config) (st : H4D.C3State),
       (H4D.c3Step cfg st (H4D.CEv.stop "div")).slots.pending_div_style = none) ∧
    (H4D.runC3 ⟨[("x", "No Spacing")], [], some "Normal",
        ["Normal", "No Spacing"], true⟩
      [H4D.CEv.start "div" [("class", "x")],
       H4D.CEv.start "p" [], H4D.CEv.txt "one", H4D.CEv.stop "p",
       H4D.CEv.start "p" [], H4D.CEv.txt "two", H4D.CEv.stop "p",
       H4D.CEv.start "p" [], H4D.CEv.txt "three", H4D.CEv.stop "p",
       H4D.CEv.stop "div",
       H4D.CEv.start "p" [], H4D.CEv.txt "four", H4D.CEv.stop "p"]).doc
      = [⟨"No Spacing", ["one"]⟩, ⟨"No Spacing", ["two"]⟩,
         ⟨"No Spacing", ["three"]⟩, ⟨"Normal", ["four"]⟩] := by
  refine ⟨?_, ?_, ?_, by decide⟩
  · intro cfg st attrs s h1 h2 h3
    simp [H4D.c3Step, h1, h2, H4D.apply_style_to_paragraph, h3]
  · intro cfg st attrs cs h1 h2 h3 h4
    constructor <;> simp [H4D.c3Step, h1, h2, h3, h4]
  · intro cfg st
    rfl

/-- Witness for C3: the inheritance statement at a state whose pending div
style is `No Spacing`. -/
theorem claim_C3_div_style_inheritance_witness :
    (H4D.c3Step ⟨[("x", "No Spacing")], [], some "Normal",
        ["Normal", "No Spacing"], true⟩
      ⟨[], false, false, ⟨some "No Spacing", none, none, none⟩⟩
      (H4D.CEv.start "p" [])).doc = [] ++ [⟨"No Spacing", []⟩] :=
  claim_C3_div_style_inheritance.1
    ⟨[("x", "No Spacing")], [], some "Normal", ["Normal", "No Spacing"], true⟩
    ⟨[], false, false, ⟨some "No Spacing", none, none, none⟩⟩ [] "No Spacing"
    (by decide) (by decide) (by decide)

/-- C5: entering a table sets the number of `</table>` events to ignore to
the count of table elements nested inside it (for any child-translator
callback and any state, whenever the table mutation succeeds), and on the
concrete one-table-nested-in-one-cell document the output has exactly one
top-level table mutation, with the nested table appearing exactly once,
inside cell (0,0), its text intact. -/
theorem claim_C5_nested_table_skip :
    (∀ (fuel : Nat) (cellFn : List H4D.Html → List H4D.Block × Option String)
       (cfg : H4D.TConfig) (t : H4D.Html) (st : H4D.TState),
       cfg.table_style = none →
       (H4D.handleTableHtml fuel cellFn cfg t st).err = none →
       (H4D.handleTableHtml fuel cellFn cfg t st).instances_to_skip
           = (H4D.findTablesF fuel (H4D.childrenOf t)).length ∧
       (H4D.handleTableHtml fuel cellFn cfg t st).skip = true ∧
       (H4D.handleTableHtml fuel cellFn cfg t st).skip_tag = some "table") ∧
    (H4D.translateFuel 10 ⟨none, [], true⟩ [H4D.outerTableEx]).2 = none ∧
    (H4D.translateFuel 10 ⟨none, [], true⟩ [H4D.outerTableEx]).1.length = 1 ∧
    ((H4D.translateFuel 10 ⟨none, [], true⟩ [H4D.outerTableEx]).1.filter
      H4D.isTableB).length = 1 ∧
    ((H4D.cellDoc
        ((H4D.translateFuel 10 ⟨none, [], true⟩ [H4D.outerTableEx]).1.getD 0
          H4D.defaultBlock) 0 0).filter H4D.isTableB).length = 1 ∧
    H4D.firstParaRuns
      (H4D.cellDoc
        (((H4D.cellDoc
            ((H4D.translateFuel 10 ⟨none, [], true⟩ [H4D.outerTableEx]).1.getD 0
              H4D.defaultBlock) 0 0).filter H4D.isTableB).getD 0 H4D.defaultBlock)
        0 0) = ["x"] := by
  refine ⟨?_, by decide, by decide, by decide, by decide, by decide⟩
  intro fuel cellFn cfg t st hstyle herr
  unfold H4D.handleTableHtml at herr ⊢
  rw [hstyle] at herr ⊢
  dsimp only at herr ⊢
  rcases hfill : H4D.fillRows cellFn
      ((H4D.getTableRows t).enum.map (fun pr => (pr.1, H4D.tcellsOf pr.2)))
      (List.replicate (H4D.get_table_dimensions ((H4D.getTableRows t).map H4D.rowSpecOf)).1
        (List.replicate (H4D.get_table_dimensions ((H4D.getTableRows t).map H4D.rowSpecOf)).2 false))
      (List.replicate (H4D.get_table_dimensions ((H4D.getTableRows t).map H4D.rowSpecOf)).1
        (List.replicate (H4D.get_table_dimensions ((H4D.getTableRows t).map H4D.rowSpecOf)).2 []))
      with ⟨cellsF, oe⟩
  rw [hfill] at herr ⊢
  cases oe with
  | some e => simp at herr
  | none => exact ⟨rfl, rfl, rfl⟩

/-- Witness for C5: the skip-count statement on the one-cell table with a
trivial child translator. -/
theorem claim_C5_nested_table_skip_witness :
    (H4D.handleTableHtml 1 (fun _ => ([], none)) ⟨none, [], true⟩
        H4D.innerTableEx ⟨[], false, false, none, 0, [], 0, none⟩).instances_to_skip
        = (H4D.findTablesF 1 (H4D.childrenOf H4D.innerTableEx)).length ∧
    (H4D.handleTableHtml 1 (fun _ => ([], none)) ⟨none, [], true⟩
        H4D.innerTableEx ⟨[], false, false, none, 0, [], 0, none⟩).skip = true ∧
    (H4D.handleTableHtml 1 (fun _ => ([], none)) ⟨none, [], true⟩
        H4D.innerTableEx ⟨[], false, false, none, 0, [], 0, none⟩).skip_tag
        = some "table" :=
  claim_C5_nested_table_skip.1 1 (fun _ => ([], none)) ⟨none, [], true⟩
    H4D.innerTableEx ⟨[], false, false, none, 0, [], 0, none⟩ rfl (by decide)

/-- C9 counterexample: a run whose table style is unknown raises the fatal
`ValueError` only after the paragraph and the `add_table` mutation have
been sent to the document sink — a fatal error does not imply zero
mutations. -/
theorem claim_C9_counterexample :
    (H4D.add_html_to_document 10 ⟨some "Bogus", ["Table Grid"], true⟩
      (H4D.PyArg.strArg [H4D.Html.elem "p" [] [H4D.Html.text "hi"], H4D.innerTableEx])
      H4D.PyArg.docArg).2 = some "ValueError: Unable to apply style" ∧
    (H4D.add_html_to_document 10 ⟨some "Bogus", ["Table Grid"], true⟩
      (H4D.PyArg.strArg [H4D.Html.elem "p" [] [H4D.Html.text "hi"], H4D.innerTableEx])
      H4D.PyArg.docArg).1.length = 2 ∧
    ((H4D.add_html_to_document 10 ⟨some "Bogus", ["Table Grid"], true⟩
      (H4D.PyArg.strArg [H4D.Html.elem "p" [] [H4D.Html.text "hi"], H4D.innerTableEx])
      H4D.PyArg.docArg).1.filter H4D.isTableB).length = 1 := by
  refine ⟨by decide, by decide, by decide⟩

/-- C9 (amended): wrong-argument-type errors are raised by the entry point
before any document mutation (the mutation list is empty); the unsupported
table-style error, however, is raised inside `handle_table` after
`add_table` has already mutated the document, so such a run leaves prior
mutations and the new table behind. -/
theorem claim_C9_fail_fast :
    (∀ (fuel : Nat) (cfg : H4D.TConfig) (target : H4D.PyArg),
       H4D.add_html_to_document fuel cfg H4D.PyArg.docArg target
         = ([], some "ValueError: first argument type") ∧
       H4D.add_html_to_document fuel cfg H4D.PyArg.cellArg target
         = ([], some "ValueError: first argument type") ∧
       H4D.add_html_to_document fuel cfg H4D.PyArg.otherArg target
         = ([], some "ValueError: first argument type")) ∧
    (∀ (fuel : Nat) (cfg : H4D.TConfig) (nodes ns : List H4D.Html),
       H4D.add_html_to_document fuel cfg (H4D.PyArg.strArg nodes)
           (H4D.PyArg.strArg ns)
         = ([], some "ValueError: second argument type") ∧
       H4D.add_html_to_document fuel cfg (H4D.PyArg.strArg nodes)
           H4D.PyArg.otherArg
         = ([], some "ValueError: second argument type")) ∧
    (H4D.add_html_to_document 10 ⟨some "Bogus", ["Table Grid"], true⟩
      (H4D.PyArg.strArg [H4D.Html.elem "p" [] [H4D.Html.text "hi"], H4D.innerTableEx])
      H4D.PyArg.docArg).2.isSome = true ∧
    (H4D.add_html_to_document 10 ⟨some "Bogus", ["Table Grid"], true⟩
      (H4D.PyArg.strArg [H4D.Html.elem "p" [] [H4D.Html.text "hi"], H4D.innerTableEx])
      H4D.PyArg.docArg).1.length = 2 := by
  refine ⟨?_, ?_, by decide, by decide⟩
  · intro fuel cfg target
    exact ⟨rfl, rfl, rfl⟩
  · intro fuel cfg nodes ns
    exact ⟨rfl, rfl⟩

/-- C10: whenever `add_html_to_cell` completes (no exception), the cell
holds at least one paragraph; concretely, on the empty string the
placeholder paragraph is deleted and a single fresh empty paragraph is
appended. -/
theorem claim_C10_cell_paragraph :
    (∀ (fuel : Nat) (cfg : H4D.TConfig) (cell : List H4D.Block)
       (nodes : List H4D.Html),
       (H4D.add_html_to_cell fuel cfg cell nodes).2 = none →
       ((H4D.add_html_to_cell fuel cfg cell nodes).1.filter H4D.isParaB) ≠ []) ∧
    (H4D.add_html_to_cell 5 ⟨none, [], true⟩ [H4D.Block.para "Marker" ["orig"]] []).2
      = none ∧
    (H4D.add_html_to_cell 5 ⟨none, [], true⟩ [H4D.Block.para "Marker" ["orig"]] []).1.length
      = 1 ∧
    H4D.firstParaStyle
      (H4D.add_html_to_cell 5 ⟨none, [], true⟩ [H4D.Block.para "Marker" ["orig"]] []).1
      = some "Normal" ∧
    H4D.firstParaRuns
      (H4D.add_html_to_cell 5 ⟨none, [], true⟩ [H4D.Block.para "Marker" ["orig"]] []).1
      = [""] := by
  refine ⟨?_, by decide, by decide, by decide, by decide⟩
  intro fuel cfg cell nodes h
  unfold H4D.add_html_to_cell at h ⊢
  rcases htr : H4D.translateFuel fuel cfg nodes with ⟨blocks, oe⟩
  rw [htr] at h
  cases oe with
  | some e => simp [H4D.cellPost] at h
  | none =>
      unfold H4D.cellPost
      dsimp only
      by_cases he :
          ((List.filter H4D.isParaB (H4D.removeFirstPara cell ++ blocks)).isEmpty) = true
      · rw [if_pos he]
        dsimp only
        rw [List.filter_append]
        simp [H4D.isParaB]
      · rw [if_neg he]
        dsimp only
        intro hc
        exact he (by simp [hc])

/-- Witness for C10: the completion hypothesis discharged on the empty
input. -/
theorem claim_C10_cell_paragraph_witness :
    ((H4D.add_html_to_cell 5 ⟨none, [], true⟩ [H4D.Block.para "Marker" ["orig"]] []).1.filter
      H4D.isParaB) ≠ [] :=
  claim_C10_cell_paragraph.1 5 ⟨none, [], true⟩ [H4D.Block.para "Marker" ["orig"]] []
    (by decide)

end H4D
